import Mathlib

/-!
Verification development for the FirstVideo Script→Timeline compiler core.

The TypeScript sources are shallowly embedded as follows:
* integer frame positions and counts become `ℤ`;
* JS numbers holding seconds or decibels become exact rationals `ℚ`
  (idealizing IEEE doubles, as the specification does);
* audio gains become real numbers `ℝ` (`gain = 10^(dB/20)`);
* `undefined` / optional fields become `Option`;
* JS `Record<string, T>` objects become association lists `List (String × T)`
  with insert-or-overwrite assignment;
* JS `Map` with `get(k) ?? 0` becomes a total function `String → ℤ`.

Rational constants are written with `mkRat` (for example `mkRat 35 100` for the
literal `0.35`) so that every computable definition evaluates inside the kernel;
`secToFrames_eq_ceil` proves the frame conversion equal to `⌈sec · fps⌉`,
the literal `Math.ceil(sec * fps)` of `src/domain/time.ts`.
-/

set_option maxRecDepth 100000

namespace FV

/-- Embeds `clamp(value, min, max) = Math.min(max, Math.max(min, value))` from
`src/domain/audio.ts`. -/
def clamp {α : Type} [LinearOrder α] (value lo hi : α) : α := min hi (max lo value)

/-- Embeds `secToFrames(sec, fps) = Math.ceil(sec * fps)` from
`src/domain/time.ts`.  Implemented on the numerator/denominator representation
(`⌈a/b⌉ = -((-a) div b)` for `b > 0`) so that it evaluates in the kernel;
`secToFrames_eq_ceil` below proves it equal to `⌈sec * fps⌉`. -/
def secToFrames (sec : ℚ) (fps : ℤ) : ℤ := -((-(sec.num * fps)) / (sec.den : ℤ))

theorem secToFrames_eq_ceil (sec : ℚ) (fps : ℤ) :
    secToFrames sec fps = ⌈sec * (fps : ℚ)⌉ := by
  have hden : ((sec.den : ℕ) : ℚ) ≠ 0 := by exact_mod_cast sec.den_nz
  have hnum : sec * ((sec.den : ℕ) : ℚ) = (sec.num : ℚ) :=
    calc sec * ((sec.den : ℕ) : ℚ)
        = ((sec.num : ℚ) / ((sec.den : ℕ) : ℚ)) * ((sec.den : ℕ) : ℚ) := by
          rw [Rat.num_div_den]
      _ = (sec.num : ℚ) := div_mul_cancel₀ _ hden
  have h1 : -(sec * (fps : ℚ)) = (((-(sec.num * fps)) : ℤ) : ℚ) / ((sec.den : ℕ) : ℚ) := by
    rw [eq_div_iff hden]
    push_cast
    rw [neg_mul, mul_right_comm, hnum]
  have h2 : (⌈sec * (fps : ℚ)⌉ : ℤ) = -⌊-(sec * (fps : ℚ))⌋ := by
    rw [Int.floor_neg]; ring
  rw [h2, h1, Rat.floor_intCast_div_natCast, secToFrames]

/-- Embeds JS `String(n).padStart(3, "0")` used for audio file and asset names. -/
def padStart3 (n : ℕ) : String :=
  let s := toString n
  String.mk (List.replicate (3 - s.length) '0') ++ s

/-- Embeds JS `String.prototype.includes` (substring test) on lists of
characters. -/
def listIncludes (pat : List Char) : List Char → Bool
  | [] => pat.isEmpty
  | c :: rest => pat.isPrefixOf (c :: rest) || listIncludes pat rest

/-- Embeds `s.includes(pat)` for strings. -/
def strIncludes (s pat : String) : Bool := listIncludes pat.toList s.toList

/-- Lookup in a JS object modelled as an association list (`obj[k]`). -/
def recordGet? {α : Type} (r : List (String × α)) (k : String) : Option α :=
  (r.find? (fun p => p.1 == k)).map (·.2)

/-- Insert-or-overwrite assignment on a JS object (`obj[k] = v`). -/
def recordSet {α : Type} (r : List (String × α)) (k : String) (v : α) :
    List (String × α) :=
  if (r.find? (fun p => p.1 == k)).isSome then
    r.map (fun p => if p.1 == k then (k, v) else p)
  else r ++ [(k, v)]

/-! Default constants of `src/compiler/presets/bgm.ts`. -/

def DEFAULT_BASE_DB : ℚ := mkRat (-12) 1
def DEFAULT_MAX_GAIN_DB : ℚ := mkRat (-3) 1
def DEFAULT_IDLE_BOOST_DB : ℚ := mkRat 3 1
def DEFAULT_DUCK_DELTA_DB : ℚ := mkRat (-8) 1
def DEFAULT_ATTACK_SEC : ℚ := mkRat 10 100
def DEFAULT_RELEASE_SEC : ℚ := mkRat 25 100
def DEFAULT_MERGE_GAP_SEC : ℚ := mkRat 35 100
def DEFAULT_MIN_HOLD_SEC : ℚ := mkRat 60 100
def DEFAULT_LOOP_CROSSFADE_SEC : ℚ := mkRat 25 100
def DEFAULT_FADE_IN_SEC : ℚ := mkRat 1 1
def DEFAULT_FADE_OUT_SEC : ℚ := mkRat 1 1
def DEFAULT_TRANSITION_SEC : ℚ := mkRat 1 1

/-! Clamp ranges of `src/domain/audio.ts`. -/

def VOLUME_DB_MIN : ℚ := mkRat (-60) 1
def VOLUME_DB_MAX : ℚ := mkRat 6 1
def DUCK_DELTA_DB_MIN : ℚ := mkRat (-60) 1
def DUCK_DELTA_DB_MAX : ℚ := mkRat 0 1

/-! Data model of `spec/timeline.schema.ts` (Timeline output). -/

/-- Timeline meta information (`timelineMetaSchema`). -/
structure TimelineMeta where
  fps : ℤ
  width : ℤ
  height : ℤ
  totalFrames : ℤ
  deriving DecidableEq

/-- Audio asset reference (`audioAssetSchema`). -/
structure AudioAsset where
  src : String
  durationFrames : ℤ
  deriving DecidableEq

/-- BGM asset reference (`bgmAssetSchema`), including the optional
`loudnessGainDb` documented as a `baseGain` multiplier. -/
structure BgmAsset where
  src : String
  durationFrames : Option ℤ
  loudnessGainDb : Option ℚ
  deriving DecidableEq

/-- Audio clip (`audioClipSchema`). -/
structure AudioClip where
  assetId : String
  start : ℤ
  duration : ℤ
  deriving DecidableEq

/-- Subtitle clip (`subtitleClipSchema`). -/
structure SubtitleClip where
  start : ℤ
  duration : ℤ
  text : String
  deriving DecidableEq

/-- Character state (`characterStateSchema`). -/
structure CharacterState where
  isTalking : Bool
  deriving DecidableEq

/-- Character clip (`characterClipSchema`). -/
structure CharacterClip where
  start : ℤ
  duration : ℤ
  characterId : String
  state : CharacterState
  deriving DecidableEq

/-- Frame-based BGM ducking object of a Timeline clip (`bgmDuckingSchema`). -/
structure BgmDucking where
  enabled : Bool
  duckDeltaDb : Option ℚ
  duckVolumeDb : Option ℚ
  duckVolume : Option ℚ
  attackFrames : ℤ
  releaseFrames : ℤ
  mergeGapFrames : Option ℤ
  minHoldFrames : Option ℤ
  deriving DecidableEq

/-- BGM clip (`bgmClipSchema`). -/
structure BgmClip where
  assetId : String
  start : ℤ
  duration : ℤ
  audioOffsetFrames : Option ℤ
  volumeDb : Option ℚ
  volume : Option ℚ
  maxGainDb : Option ℚ
  fadeInFrames : ℤ
  fadeOutFrames : ℤ
  loop : Bool
  loopStartFrames : Option ℤ
  loopEndFrames : Option ℤ
  loopCrossfadeFrames : Option ℤ
  idleBoostDb : Option ℚ
  ducking : Option BgmDucking
  transitionInFrames : Option ℤ
  transitionOutFrames : Option ℤ
  deriving DecidableEq

/-- Track union (`trackSchema`). -/
inductive Track where
  | audio (clips : List AudioClip)
  | subtitle (clips : List SubtitleClip)
  | character (clips : List CharacterClip)
  | bgm (clips : List BgmClip)
  deriving DecidableEq

/-- Timeline assets (`timelineAssetsSchema`); JS records become association
lists. -/
structure TimelineAssets where
  audio : List (String × AudioAsset)
  bgm : Option (List (String × BgmAsset))
  deriving DecidableEq

/-- Root Timeline document (`timelineSchema`). -/
structure Timeline where
  version : String
  meta : TimelineMeta
  assets : TimelineAssets
  tracks : List Track
  deriving DecidableEq

/-- Embeds `getBgmTrack` from `spec/timeline.schema.ts`: the first track with
`type === "bgm"`. -/
def getBgmTrack (tl : Timeline) : Option (List BgmClip) :=
  tl.tracks.findSome? (fun t => match t with
    | Track.bgm clips => some clips
    | _ => none)

/-! Data model of `spec/script.schema.ts` (Script input). -/

/-- BGM preset names (`bgmPresetSchema`). -/
inductive BgmPreset where
  | talk
  | calm
  | hype
  | none
  deriving DecidableEq

/-- Script-level ducking configuration (`bgmDuckingConfigSchema`); fields with
zod defaults are plain values, genuinely optional fields are `Option`. -/
structure BgmDuckingConfig where
  enabled : Bool
  duckDeltaDb : Option ℚ
  duckVolumeDb : Option ℚ
  duckVolume : Option ℚ
  attackSec : ℚ
  releaseSec : ℚ
  mergeGapSec : ℚ
  minHoldSec : ℚ
  deriving DecidableEq

/-- Video-level BGM configuration (`bgmConfigSchema`). -/
structure BgmConfig where
  src : String
  preset : Option BgmPreset
  volumeDb : Option ℚ
  volume : Option ℚ
  maxGainDb : ℚ
  fadeInSec : ℚ
  fadeOutSec : ℚ
  loop : Bool
  loopStartSec : Option ℚ
  loopEndSec : Option ℚ
  loopCrossfadeSec : ℚ
  idleBoostDb : Option ℚ
  ducking : Option BgmDuckingConfig
  deriving DecidableEq

/-- Scene-level BGM override (`sceneBgmOverrideSchema` = partial `BgmConfig`
plus `transitionSec`); every field optional. -/
structure SceneBgmOverride where
  src : Option String
  preset : Option BgmPreset
  volumeDb : Option ℚ
  volume : Option ℚ
  maxGainDb : Option ℚ
  fadeInSec : Option ℚ
  fadeOutSec : Option ℚ
  loop : Option Bool
  loopStartSec : Option ℚ
  loopEndSec : Option ℚ
  loopCrossfadeSec : Option ℚ
  idleBoostDb : Option ℚ
  ducking : Option BgmDuckingConfig
  transitionSec : Option ℚ
  deriving DecidableEq

/-- Dialogue block (`dialogueBlockSchema`). -/
structure DialogueBlock where
  speaker : String
  text : String
  pauseSec : Option ℚ
  id : Option String
  audioKey : Option String
  fileName : Option String
  deriving DecidableEq

/-- Block union (`blockSchema`), currently dialogue only. -/
inductive Block where
  | dialogue (block : DialogueBlock)
  deriving DecidableEq

/-- Scene style (`sceneStyleSchema`). -/
structure SceneStyle where
  bg : Option String
  subtitleStyle : Option String
  bgm : Option SceneBgmOverride
  deriving DecidableEq

/-- Scene (`sceneSchema`). -/
structure Scene where
  id : String
  style : Option SceneStyle
  blocks : List Block
  deriving DecidableEq

/-- Cast member (`castMemberSchema`); only the fields the compiler can
observe. -/
structure CastMember where
  speakerId : ℤ
  baseDir : Option String
  deriving DecidableEq

/-- Video configuration (`videoConfigSchema`). -/
structure VideoConfig where
  fps : ℤ
  width : ℤ
  height : ℤ
  defaultPauseSec : ℚ
  bgm : Option BgmConfig
  deriving DecidableEq

/-- Root Script document (`scriptSchema`). -/
structure Script where
  version : String
  video : VideoConfig
  cast : List (String × CastMember)
  scenes : List Scene
  deriving DecidableEq

/-- Audio manifest item (`AudioManifestItem` in
`src/compiler/rules/dialogue.ts`). -/
structure AudioManifestItem where
  audioKey : String
  speakerId : ℤ
  text : String
  audioSrc : String
  durationInSeconds : ℚ
  fileName : Option String
  deriving DecidableEq

/-! Dialogue block rule, embedding `src/compiler/rules/dialogue.ts`. -/

/-- Result of processing a dialogue block (`DialogueRuleResult`). -/
structure DialogueRuleResult where
  audioAssetId : String
  audioAsset : AudioAsset
  audioClip : AudioClip
  subtitleClip : SubtitleClip
  characterClips : List CharacterClip
  totalDurationFrames : ℤ
  deriving DecidableEq

/-- Context for processing dialogue blocks (`DialogueContext`). -/
structure DialogueContext where
  script : Script
  scene : Scene
  audioManifest : List AudioManifestItem
  currentFrame : ℤ
  blockIndex : ℕ
  globalBlockIndex : ℕ
  deriving DecidableEq

/-- Embeds `generateAudioKey(sceneId, blockIndex) = sceneId + ":" + blockIndex`. -/
def generateAudioKey (sceneId : String) (blockIndex : ℕ) : String :=
  sceneId ++ ":" ++ toString blockIndex

/-- Embeds `findAudioInManifest`: first by `fileName` (substring of `audioSrc`
or equal to the legacy `fileName` field), then by `audioKey`
(`block.audioKey ?? expectedAudioKey`), else `undefined`. -/
def findAudioInManifest (block : DialogueBlock)
    (audioManifest : List AudioManifestItem) (expectedAudioKey : String) :
    Option AudioManifestItem :=
  let byAudioKey :=
    let audioKey := block.audioKey.getD expectedAudioKey
    audioManifest.find? (fun item => item.audioKey == audioKey)
  match block.fileName with
  | some fn =>
      match audioManifest.find?
          (fun item => strIncludes item.audioSrc fn || item.fileName == some fn) with
      | some item => some item
      | none => byAudioKey
  | none => byAudioKey

/-- Embeds `processDialogueBlock`: voice duration from the bound manifest item
(fallback `fps * 2` with a synthesized `audioSrc`), pause from
`block.pauseSec ?? defaultPauseSec`, one audio clip, one subtitle clip and one
or two character clips. -/
def processDialogueBlock (block : DialogueBlock) (ctx : DialogueContext) :
    DialogueRuleResult :=
  let fps := ctx.script.video.fps
  let defaultPauseSec := ctx.script.video.defaultPauseSec
  let speaker := block.speaker
  let expectedAudioKey := generateAudioKey ctx.scene.id ctx.blockIndex
  let manifestItem := findAudioInManifest block ctx.audioManifest expectedAudioKey
  let found : Option AudioManifestItem :=
    match manifestItem with
    | some item => if item.durationInSeconds > 0 then some item else none
    | none => none
  let durationFrames : ℤ :=
    match found with
    | some item => secToFrames item.durationInSeconds fps
    | none => fps * 2
  let audioSrc : String :=
    match found with
    | some item => item.audioSrc
    | none => "audio/" ++ padStart3 (ctx.globalBlockIndex + 1) ++ ".wav"
  let pauseSec := block.pauseSec.getD defaultPauseSec
  let pauseFrames := secToFrames pauseSec fps
  let totalDurationFrames := durationFrames + pauseFrames
  let audioAssetId := "audio_" ++ padStart3 (ctx.globalBlockIndex + 1)
  let audioAsset : AudioAsset := { src := audioSrc, durationFrames := durationFrames }
  let audioClip : AudioClip :=
    { assetId := audioAssetId, start := ctx.currentFrame, duration := durationFrames }
  let subtitleClip : SubtitleClip :=
    { start := ctx.currentFrame, duration := totalDurationFrames, text := block.text }
  let talkClip : CharacterClip :=
    { start := ctx.currentFrame, duration := durationFrames,
      characterId := speaker, state := { isTalking := true } }
  let characterClips : List CharacterClip :=
    if pauseFrames > 0 then
      [talkClip,
       { start := ctx.currentFrame + durationFrames, duration := pauseFrames,
         characterId := speaker, state := { isTalking := false } }]
    else [talkClip]
  { audioAssetId := audioAssetId
    audioAsset := audioAsset
    audioClip := audioClip
    subtitleClip := subtitleClip
    characterClips := characterClips
    totalDurationFrames := totalDurationFrames }

/-! BGM presets and config resolution, embedding `src/compiler/presets/bgm.ts`. -/

/-- Fully resolved ducking settings (the `ducking` field of
`ResolvedBgmConfig`); note it carries `duckDeltaDb` only — the script-level
`duckVolumeDb` / `duckVolume` fields have no counterpart here. -/
structure ResolvedDucking where
  enabled : Bool
  duckDeltaDb : ℚ
  attackSec : ℚ
  releaseSec : ℚ
  mergeGapSec : ℚ
  minHoldSec : ℚ
  deriving DecidableEq

/-- Fully resolved BGM configuration (`ResolvedBgmConfig`). -/
structure ResolvedBgmConfig where
  src : String
  volumeDb : ℚ
  maxGainDb : ℚ
  fadeInSec : ℚ
  fadeOutSec : ℚ
  loop : Bool
  loopStartSec : Option ℚ
  loopEndSec : Option ℚ
  loopCrossfadeSec : ℚ
  idleBoostDb : ℚ
  ducking : ResolvedDucking
  deriving DecidableEq

/-- Partial ducking override; `none` means the key is absent or `undefined`
and is therefore skipped by `deepMerge`. -/
structure DuckingOverride where
  enabled : Option Bool
  duckDeltaDb : Option ℚ
  attackSec : Option ℚ
  releaseSec : Option ℚ
  mergeGapSec : Option ℚ
  minHoldSec : Option ℚ
  deriving DecidableEq

/-- Partial config override for the non-`src`, non-`ducking` fields. -/
structure ConfigOverride where
  volumeDb : Option ℚ
  maxGainDb : Option ℚ
  fadeInSec : Option ℚ
  fadeOutSec : Option ℚ
  loop : Option Bool
  loopStartSec : Option ℚ
  loopEndSec : Option ℚ
  loopCrossfadeSec : Option ℚ
  idleBoostDb : Option ℚ
  deriving DecidableEq

/-- Preset payload (`PresetConfig`): a config override plus an optional nested
ducking override. -/
structure PresetPayload where
  config : ConfigOverride
  ducking : Option DuckingOverride
  deriving DecidableEq

/-- Empty config override (object literal with no keys). -/
def ConfigOverride.empty : ConfigOverride :=
  { volumeDb := none, maxGainDb := none, fadeInSec := none, fadeOutSec := none,
    loop := none, loopStartSec := none, loopEndSec := none,
    loopCrossfadeSec := none, idleBoostDb := none }

/-- Empty ducking override. -/
def DuckingOverride.empty : DuckingOverride :=
  { enabled := none, duckDeltaDb := none, attackSec := none, releaseSec := none,
    mergeGapSec := none, minHoldSec := none }

/-- Embeds `deepMerge` on the `ducking` object: keys present and not
`undefined` in the override win. -/
def mergeDucking (base : ResolvedDucking) (o : DuckingOverride) : ResolvedDucking :=
  { enabled := o.enabled.getD base.enabled
    duckDeltaDb := o.duckDeltaDb.getD base.duckDeltaDb
    attackSec := o.attackSec.getD base.attackSec
    releaseSec := o.releaseSec.getD base.releaseSec
    mergeGapSec := o.mergeGapSec.getD base.mergeGapSec
    minHoldSec := o.minHoldSec.getD base.minHoldSec }

/-- Resolved config without `src` (the running `config` value inside
`resolveBgmConfig`). -/
structure ResolvedNoSrc where
  volumeDb : ℚ
  maxGainDb : ℚ
  fadeInSec : ℚ
  fadeOutSec : ℚ
  loop : Bool
  loopStartSec : Option ℚ
  loopEndSec : Option ℚ
  loopCrossfadeSec : ℚ
  idleBoostDb : ℚ
  ducking : ResolvedDucking
  deriving DecidableEq

/-- Embeds `deepMerge` of a flat config override into the running config
(`ducking` untouched). -/
def mergeConfig (base : ResolvedNoSrc) (o : ConfigOverride) : ResolvedNoSrc :=
  { base with
    volumeDb := o.volumeDb.getD base.volumeDb
    maxGainDb := o.maxGainDb.getD base.maxGainDb
    fadeInSec := o.fadeInSec.getD base.fadeInSec
    fadeOutSec := o.fadeOutSec.getD base.fadeOutSec
    loop := o.loop.getD base.loop
    loopStartSec := (o.loopStartSec.map some).getD base.loopStartSec
    loopEndSec := (o.loopEndSec.map some).getD base.loopEndSec
    loopCrossfadeSec := o.loopCrossfadeSec.getD base.loopCrossfadeSec
    idleBoostDb := o.idleBoostDb.getD base.idleBoostDb }

/-- Embeds `deepMerge` of a preset payload (nested `ducking` merged
recursively). -/
def mergePreset (base : ResolvedNoSrc) (p : PresetPayload) : ResolvedNoSrc :=
  let merged := mergeConfig base p.config
  match p.ducking with
  | some d => { merged with ducking := mergeDucking base.ducking d }
  | none => merged

/-- Embeds the `BGM_PRESETS` table. -/
def BGM_PRESETS : BgmPreset → PresetPayload
  | BgmPreset.talk =>
      { config := { ConfigOverride.empty with
          volumeDb := some DEFAULT_BASE_DB
          maxGainDb := some DEFAULT_MAX_GAIN_DB
          idleBoostDb := some DEFAULT_IDLE_BOOST_DB }
        ducking := some
          { enabled := some true
            duckDeltaDb := some DEFAULT_DUCK_DELTA_DB
            attackSec := some DEFAULT_ATTACK_SEC
            releaseSec := some DEFAULT_RELEASE_SEC
            mergeGapSec := some DEFAULT_MERGE_GAP_SEC
            minHoldSec := some DEFAULT_MIN_HOLD_SEC } }
  | BgmPreset.calm =>
      { config := { ConfigOverride.empty with
          volumeDb := some (mkRat (-16) 1)
          maxGainDb := some (mkRat (-6) 1)
          idleBoostDb := some (mkRat 2 1) }
        ducking := some
          { enabled := some true
            duckDeltaDb := some (mkRat (-6) 1)
            attackSec := some (mkRat 15 100)
            releaseSec := some (mkRat 35 100)
            mergeGapSec := some (mkRat 5 10)
            minHoldSec := some (mkRat 8 10) } }
  | BgmPreset.hype =>
      { config := { ConfigOverride.empty with
          volumeDb := some (mkRat (-10) 1)
          maxGainDb := some (mkRat (-2) 1)
          idleBoostDb := some (mkRat 4 1) }
        ducking := some
          { enabled := some true
            duckDeltaDb := some (mkRat (-10) 1)
            attackSec := some (mkRat 8 100)
            releaseSec := some (mkRat 18 100)
            mergeGapSec := some (mkRat 25 100)
            minHoldSec := some (mkRat 4 10) } }
  | BgmPreset.none =>
      { config := { ConfigOverride.empty with
          volumeDb := some (mkRat (-60) 1)
          idleBoostDb := some (mkRat 0 1) }
        ducking := some
          { DuckingOverride.empty with
            enabled := some false
            duckDeltaDb := some (mkRat 0 1) } }

/-- Embeds `getDefaultBgmConfig()`. -/
def getDefaultBgmConfig : ResolvedNoSrc :=
  { volumeDb := DEFAULT_BASE_DB
    maxGainDb := DEFAULT_MAX_GAIN_DB
    fadeInSec := DEFAULT_FADE_IN_SEC
    fadeOutSec := DEFAULT_FADE_OUT_SEC
    loop := true
    loopStartSec := none
    loopEndSec := none
    loopCrossfadeSec := DEFAULT_LOOP_CROSSFADE_SEC
    idleBoostDb := DEFAULT_IDLE_BOOST_DB
    ducking :=
      { enabled := true
        duckDeltaDb := DEFAULT_DUCK_DELTA_DB
        attackSec := DEFAULT_ATTACK_SEC
        releaseSec := DEFAULT_RELEASE_SEC
        mergeGapSec := DEFAULT_MERGE_GAP_SEC
        minHoldSec := DEFAULT_MIN_HOLD_SEC } }

/-- Override built from `video.bgm` explicit values.  The source first spreads
`volumeDb: videoBgm.volumeDb` (when defined) and then, when `videoBgm.volume`
is defined, overwrites the key with the value `undefined` — which `deepMerge`
skips, so a set `volume` suppresses the explicit `volumeDb` (and contributes
nothing itself). -/
def videoBgmOverride (videoBgm : BgmConfig) : ConfigOverride :=
  { volumeDb := if videoBgm.volume.isSome then none else videoBgm.volumeDb
    maxGainDb := some videoBgm.maxGainDb
    fadeInSec := some videoBgm.fadeInSec
    fadeOutSec := some videoBgm.fadeOutSec
    loop := some videoBgm.loop
    loopStartSec := videoBgm.loopStartSec
    loopEndSec := videoBgm.loopEndSec
    loopCrossfadeSec := some videoBgm.loopCrossfadeSec
    idleBoostDb := videoBgm.idleBoostDb }

/-- Ducking override built from a script-level ducking config: only
`enabled`, `duckDeltaDb`, `attackSec`, `releaseSec`, `mergeGapSec` and
`minHoldSec` are copied — `duckVolumeDb` and `duckVolume` are dropped. -/
def duckingOverrideOf (d : BgmDuckingConfig) : DuckingOverride :=
  { enabled := some d.enabled
    duckDeltaDb := d.duckDeltaDb
    attackSec := some d.attackSec
    releaseSec := some d.releaseSec
    mergeGapSec := some d.mergeGapSec
    minHoldSec := some d.minHoldSec }

/-- Override built from a scene-level BGM override. -/
def sceneOverrideConfig (o : SceneBgmOverride) : ConfigOverride :=
  { volumeDb := o.volumeDb
    maxGainDb := o.maxGainDb
    fadeInSec := o.fadeInSec
    fadeOutSec := o.fadeOutSec
    loop := o.loop
    loopStartSec := o.loopStartSec
    loopEndSec := o.loopEndSec
    loopCrossfadeSec := o.loopCrossfadeSec
    idleBoostDb := o.idleBoostDb }

/-- Ducking override built from a scene-level override's optional ducking;
zod gives every present ducking object concrete `enabled`, `attackSec`,
`releaseSec`, `mergeGapSec`, `minHoldSec` values (defaults), so all six copied
keys are defined except possibly `duckDeltaDb`. -/
def sceneDuckingOverride (d : BgmDuckingConfig) : DuckingOverride :=
  duckingOverrideOf d

/-- Embeds `resolveBgmConfig(videoBgm, sceneOverride?)`: defaults ← preset ←
video explicit values ← scene override, with `src` from the scene override if
present. -/
def resolveBgmConfig (videoBgm : BgmConfig)
    (sceneOverride : Option SceneBgmOverride := Option.none) : ResolvedBgmConfig :=
  let config0 := getDefaultBgmConfig
  let presetName := (sceneOverride.bind (·.preset)).orElse (fun _ => videoBgm.preset)
  let config1 :=
    match presetName with
    | some p => mergePreset config0 (BGM_PRESETS p)
    | none => config0
  let config2 := mergeConfig config1 (videoBgmOverride videoBgm)
  let config3 :=
    match videoBgm.ducking with
    | some d => { config2 with ducking := mergeDucking config2.ducking (duckingOverrideOf d) }
    | none => config2
  let config4 :=
    match sceneOverride with
    | some so =>
        let c := mergeConfig config3 (sceneOverrideConfig so)
        match so.ducking with
        | some d => { c with ducking := mergeDucking c.ducking (sceneDuckingOverride d) }
        | none => c
    | none => config3
  let src := (sceneOverride.bind (·.src)).getD videoBgm.src
  { src := src
    volumeDb := config4.volumeDb
    maxGainDb := config4.maxGainDb
    fadeInSec := config4.fadeInSec
    fadeOutSec := config4.fadeOutSec
    loop := config4.loop
    loopStartSec := config4.loopStartSec
    loopEndSec := config4.loopEndSec
    loopCrossfadeSec := config4.loopCrossfadeSec
    idleBoostDb := config4.idleBoostDb
    ducking := config4.ducking }

/-- Embeds JS `ToInt32` (wrap into the signed 32-bit range), used by the
`generateBgmAssetId` hash. -/
def toInt32 (n : ℤ) : ℤ := (n + 2 ^ 31) % 2 ^ 32 - 2 ^ 31

/-- Embeds one step of the `generateBgmAssetId` hash loop:
`hash = ((hash << 5) - hash) + charCode; hash = hash & hash`. -/
def hashStep (h : ℤ) (c : ℕ) : ℤ := toInt32 (toInt32 (h * 32) - h + c)

/-- Embeds `generateBgmAssetId(src)`: DJB2-style 32-bit fold of the character
codes, rendered as `bgm_` plus the lowercase hex of the absolute value. -/
def generateBgmAssetId (src : String) : String :=
  let hash := src.toList.foldl (fun h c => hashStep h c.toNat) 0
  "bgm_" ++ String.mk (Nat.toDigits 16 hash.natAbs)

/-! BGM track planner, embedding `src/compiler/compile.ts`. -/

/-- Embeds `wrapPlaybackPosition`: raw position when the audio duration is
unknown or non-positive, clamp when not looping, else wrap into the loop
window (falling back to `pos % duration` when the window is invalid).  JS `%`
is truncated remainder, i.e. `Int.tmod`. -/
def wrapPlaybackPosition (currentPos : ℤ) (audioDuration : Option ℤ)
    (loopStartFrames loopEndFrames : Option ℤ) (loop : Bool) : ℤ :=
  match audioDuration with
  | none => currentPos
  | some d =>
      if d ≤ 0 then currentPos
      else if loop = false then min currentPos d
      else
        let loopStart := loopStartFrames.getD 0
        let loopEnd := loopEndFrames.getD d
        let loopLength := loopEnd - loopStart
        if loopLength ≤ 0 ∨ loopStart < 0 ∨ loopEnd > d then Int.tmod currentPos d
        else if currentPos < loopStart then currentPos
        else loopStart + Int.tmod (currentPos - loopStart) loopLength

/-- Embeds `serializeConfig`: the stable JSON serialization lists exactly the
fields of `ResolvedBgmConfig` (src, volumeDb, maxGainDb, fadeInSec,
fadeOutSec, loop, loopStartSec, loopEndSec, loopCrossfadeSec, idleBoostDb,
ducking), so two configs serialize to the same string iff the records are
equal; the embedding therefore returns the record itself. -/
def serializeConfig (config : ResolvedBgmConfig) : ResolvedBgmConfig := config

/-- Embeds `createBgmClip(assetId, start, duration, config, fps, options)`.
The `options` object is flattened into explicit arguments.  The spread
`...(audioOffsetFrames !== undefined && audioOffsetFrames > 0 &&
{ audioOffsetFrames })` keeps the offset field only when it is positive.  The
resolved ducking carries no `duckVolumeDb` / `duckVolume` keys, so those
spreads contribute nothing. -/
def createBgmClip (assetId : String) (start duration : ℤ)
    (config : ResolvedBgmConfig) (fps : ℤ) (isFirstClip isLastClip : Bool)
    (transitionInFrames transitionOutFrames audioOffsetFrames : Option ℤ) :
    BgmClip :=
  { assetId := assetId
    start := start
    duration := duration
    audioOffsetFrames :=
      match audioOffsetFrames with
      | some v => if v > 0 then some v else none
      | none => none
    volumeDb := some config.volumeDb
    volume := none
    maxGainDb := some config.maxGainDb
    fadeInFrames := if isFirstClip then max 1 (secToFrames config.fadeInSec fps) else 1
    fadeOutFrames := if isLastClip then max 1 (secToFrames config.fadeOutSec fps) else 1
    loop := config.loop
    loopStartFrames := config.loopStartSec.map (secToFrames · fps)
    loopEndFrames := config.loopEndSec.map (secToFrames · fps)
    loopCrossfadeFrames :=
      if config.loopCrossfadeSec > 0 then some (secToFrames config.loopCrossfadeSec fps)
      else none
    idleBoostDb := some config.idleBoostDb
    ducking := some
      { enabled := config.ducking.enabled
        duckDeltaDb := some config.ducking.duckDeltaDb
        duckVolumeDb := none
        duckVolume := none
        attackFrames := max 1 (secToFrames config.ducking.attackSec fps)
        releaseFrames := max 1 (secToFrames config.ducking.releaseSec fps)
        mergeGapFrames := some (secToFrames config.ducking.mergeGapSec fps)
        minHoldFrames := some (secToFrames config.ducking.minHoldSec fps) }
    transitionInFrames := transitionInFrames
    transitionOutFrames := transitionOutFrames }

/-- Scene timing record (`SceneTiming`). -/
structure SceneTiming where
  sceneId : String
  startFrame : ℤ
  endFrame : ℤ
  scene : Scene
  deriving DecidableEq

/-- Running state of the `generateBgmTrack` scene loop: the local variables
`bgmAssets`, `bgmClips`, `playbackPosByAsset` (a map read with `?? 0`),
`currentClip`, `currentConfig`, `currentConfigStr` (`none` models the initial
`""`, which no serialized config equals) and `currentAssetId`. -/
structure BgmGenState where
  bgmAssets : List (String × BgmAsset)
  bgmClips : List BgmClip
  playbackPos : String → ℤ
  currentClip : Option BgmClip
  currentConfig : Option ResolvedBgmConfig
  currentConfigStr : Option ResolvedBgmConfig
  currentAssetId : String

/-- Initial planner state. -/
def initBgmGenState : BgmGenState :=
  { bgmAssets := [], bgmClips := [], playbackPos := fun _ => 0,
    currentClip := none, currentConfig := none, currentConfigStr := none,
    currentAssetId := "" }

/-- Embeds the planner's `getPlaybackPosition(assetId, config)`. -/
def getPlaybackPosition (bgmDur : String → Option ℤ) (fps : ℤ)
    (pos : String → ℤ) (assetId : String) (config : ResolvedBgmConfig) : ℤ :=
  wrapPlaybackPosition (pos assetId) (bgmDur assetId)
    (config.loopStartSec.map (secToFrames · fps))
    (config.loopEndSec.map (secToFrames · fps))
    config.loop

/-- Embeds the planner's `advancePlaybackPosition(assetId, frames)`. -/
def advancePlaybackPosition (pos : String → ℤ) (assetId : String) (frames : ℤ) :
    String → ℤ :=
  fun a => if a = assetId then pos a + frames else pos a

/-- The `srcChanged` branch of the scene loop: extend the open clip by the
transition window, mark the crossfade, advance the playback position of the
outgoing asset, push, and open the new source's clip at offset 0. -/
def bgmFinalizeSrcChanged (fps : ℤ) (t : SceneTiming) (st : BgmGenState)
    (config configStr : ResolvedBgmConfig) (assetId : String)
    (bgmAssets : List (String × BgmAsset)) (sceneOverride : Option SceneBgmOverride)
    (isLastScene : Bool) (cur : BgmClip) : BgmGenState :=
  let transitionSec := (sceneOverride.bind (·.transitionSec)).getD DEFAULT_TRANSITION_SEC
  let transitionFrames := max 1 (secToFrames transitionSec fps)
  let cur2 := { cur with
    duration := t.startFrame + transitionFrames - cur.start
    transitionOutFrames := some transitionFrames }
  let pos2 := advancePlaybackPosition st.playbackPos st.currentAssetId cur2.duration
  let newClip := createBgmClip assetId t.startFrame (t.endFrame - t.startFrame)
    config fps false isLastScene (some transitionFrames) none (some 0)
  { bgmAssets := bgmAssets, bgmClips := st.bgmClips ++ [cur2],
    playbackPos := pos2, currentClip := some newClip,
    currentConfig := some config, currentConfigStr := some configStr,
    currentAssetId := assetId }

/-- The settings-changed-same-source branch: close the open clip at the new
scene's start, advance the playback position, push, and open a clip with the
wrapped continuation offset. -/
def bgmFinalizeSameSrc (fps : ℤ) (bgmDur : String → Option ℤ) (t : SceneTiming)
    (st : BgmGenState) (config configStr : ResolvedBgmConfig) (assetId : String)
    (bgmAssets : List (String × BgmAsset)) (isLastScene : Bool) (cur : BgmClip) :
    BgmGenState :=
  let prevClipDuration := t.startFrame - cur.start
  let cur2 := { cur with duration := prevClipDuration }
  let pos2 := advancePlaybackPosition st.playbackPos st.currentAssetId prevClipDuration
  let audioOffset := getPlaybackPosition bgmDur fps pos2 assetId config
  let newClip := createBgmClip assetId t.startFrame (t.endFrame - t.startFrame)
    config fps false isLastScene none none (some audioOffset)
  { bgmAssets := bgmAssets, bgmClips := st.bgmClips ++ [cur2],
    playbackPos := pos2, currentClip := some newClip,
    currentConfig := some config, currentConfigStr := some configStr,
    currentAssetId := assetId }

/-- The first-clip branch: open the very first clip at offset 0. -/
def bgmFirstClip (fps : ℤ) (t : SceneTiming) (st : BgmGenState)
    (config configStr : ResolvedBgmConfig) (assetId : String)
    (bgmAssets : List (String × BgmAsset)) (isLastScene : Bool) : BgmGenState :=
  let newClip := createBgmClip assetId t.startFrame (t.endFrame - t.startFrame)
    config fps true isLastScene none none (some 0)
  { bgmAssets := bgmAssets, bgmClips := st.bgmClips,
    playbackPos := st.playbackPos, currentClip := some newClip,
    currentConfig := some config, currentConfigStr := some configStr,
    currentAssetId := assetId }

/-- The config-unchanged branch: extend the open clip to the scene's end and,
on the last scene, set its fade-out (the source's non-null assertion on
`currentConfig` is modelled with `getD 0` on an unreachable path). -/
def bgmExtend (fps : ℤ) (t : SceneTiming) (st : BgmGenState)
    (bgmAssets : List (String × BgmAsset)) (isLastScene : Bool) : BgmGenState :=
  match st.currentClip with
  | some cur =>
      let cur2 := { cur with duration := t.endFrame - cur.start }
      let lastFadeOut := max 1 (secToFrames ((st.currentConfig.map (·.fadeOutSec)).getD 0) fps)
      let cur3 := if isLastScene then { cur2 with fadeOutFrames := lastFadeOut } else cur2
      { st with bgmAssets := bgmAssets, currentClip := some cur3 }
  | none => { st with bgmAssets := bgmAssets }

/-- Asset registration performed by every iteration: add the asset record on
first sight of an asset id. -/
def bgmRegisterAsset (bgmDur : String → Option ℤ) (st : BgmGenState)
    (config : ResolvedBgmConfig) (assetId : String) : List (String × BgmAsset) :=
  if (recordGet? st.bgmAssets assetId).isNone then
    recordSet st.bgmAssets assetId
      { src := config.src, durationFrames := bgmDur assetId, loudnessGainDb := none }
  else st.bgmAssets

/-- One iteration of the `generateBgmTrack` scene loop, at index `i` of `n`
scenes; the branch conditions `isFirstScene || configChanged` and
`srcChanged` are the source's booleans. -/
def bgmStep (videoBgm : BgmConfig) (fps : ℤ) (bgmDur : String → Option ℤ)
    (n i : ℕ) (t : SceneTiming) (st : BgmGenState) : BgmGenState :=
  let sceneOverride := t.scene.style.bind (·.bgm)
  let isLastScene : Bool := i == n - 1
  let config := resolveBgmConfig videoBgm sceneOverride
  let configStr := serializeConfig config
  let assetId := generateBgmAssetId config.src
  let bgmAssets := bgmRegisterAsset bgmDur st config assetId
  let configChanged : Bool := st.currentConfigStr != some configStr
  let srcChanged : Bool := (st.currentAssetId != "") && (st.currentAssetId != assetId)
  if (i == 0) || configChanged then
    match st.currentClip with
    | some cur =>
        if srcChanged then
          bgmFinalizeSrcChanged fps t st config configStr assetId bgmAssets
            sceneOverride isLastScene cur
        else
          bgmFinalizeSameSrc fps bgmDur t st config configStr assetId bgmAssets
            isLastScene cur
    | none => bgmFirstClip fps t st config configStr assetId bgmAssets isLastScene
  else bgmExtend fps t st bgmAssets isLastScene

/-- The scene loop of `generateBgmTrack`, carrying the scene index. -/
def bgmGenLoop (videoBgm : BgmConfig) (fps : ℤ) (bgmDur : String → Option ℤ)
    (n : ℕ) : ℕ → List SceneTiming → BgmGenState → BgmGenState
  | _, [], st => st
  | i, t :: rest, st =>
      bgmGenLoop videoBgm fps bgmDur n (i + 1) rest (bgmStep videoBgm fps bgmDur n i t st)

/-- Embeds `generateBgmTrack`; the returned pair is the source's
`{ bgmAssets, bgmTrack }` with the track represented by its clip list. -/
def generateBgmTrack (videoBgm : BgmConfig) (sceneTimings : List SceneTiming)
    (totalFrames : ℤ) (fps : ℤ) (bgmDur : String → Option ℤ) :
    List (String × BgmAsset) × List BgmClip :=
  match sceneTimings with
  | [] =>
      let config := resolveBgmConfig videoBgm
      let assetId := generateBgmAssetId config.src
      let bgmAssets := recordSet []
        assetId { src := config.src, durationFrames := bgmDur assetId, loudnessGainDb := none }
      let clip := createBgmClip assetId 0 totalFrames config fps true true none none (some 0)
      (bgmAssets, [clip])
  | _ =>
      let final := bgmGenLoop videoBgm fps bgmDur sceneTimings.length 0 sceneTimings initBgmGenState
      match final.currentClip with
      | some cur => (final.bgmAssets, final.bgmClips ++ [cur])
      | none => (final.bgmAssets, final.bgmClips)

/-! Compile driver, embedding `compile` from `src/compiler/compile.ts`. -/

/-- Compile options (`CompileOptions`); the optional duration record is
collapsed into a partial map, matching the access `bgmDurationFrames?.[id]`. -/
structure CompileOptions where
  audioManifest : List AudioManifestItem
  bgmDurationFrames : String → Option ℤ

/-- Embeds `processBlock`: dispatch on the block type.  `Block` has exactly
one variant, so the defensive `default` throw in the source is
unreachable. -/
def processBlock (b : Block) (ctx : DialogueContext) : DialogueRuleResult :=
  match b with
  | Block.dialogue db => processDialogueBlock db ctx

/-- Running state of `compile`'s scene/block loop. -/
structure CompileState where
  audioClips : List AudioClip
  subtitleClips : List SubtitleClip
  characterClips : List CharacterClip
  audioAssets : List (String × AudioAsset)
  currentFrame : ℤ
  globalBlockIndex : ℕ
  sceneTimings : List SceneTiming
  deriving DecidableEq

/-- Initial compile state. -/
def initCompileState : CompileState :=
  { audioClips := [], subtitleClips := [], characterClips := [],
    audioAssets := [], currentFrame := 0, globalBlockIndex := 0,
    sceneTimings := [] }

/-- The inner block loop of `compile` for one scene (local `blockIndex`
counter). -/
def processBlocksInScene (script : Script) (scene : Scene)
    (manifest : List AudioManifestItem) :
    List Block → ℕ → CompileState → CompileState
  | [], _, st => st
  | b :: rest, blockIndex, st =>
      let ctx : DialogueContext :=
        { script := script, scene := scene, audioManifest := manifest,
          currentFrame := st.currentFrame, blockIndex := blockIndex,
          globalBlockIndex := st.globalBlockIndex }
      let result := processBlock b ctx
      let st2 : CompileState :=
        { st with
          audioAssets := recordSet st.audioAssets result.audioAssetId result.audioAsset
          audioClips := st.audioClips ++ [result.audioClip]
          subtitleClips := st.subtitleClips ++ [result.subtitleClip]
          characterClips := st.characterClips ++ result.characterClips
          currentFrame := st.currentFrame + result.totalDurationFrames
          globalBlockIndex := st.globalBlockIndex + 1 }
      processBlocksInScene script scene manifest rest (blockIndex + 1) st2

/-- The outer scene loop of `compile`, recording scene timings. -/
def processScenes (script : Script) (manifest : List AudioManifestItem) :
    List Scene → CompileState → CompileState
  | [], st => st
  | scene :: rest, st =>
      let sceneStartFrame := st.currentFrame
      let st2 := processBlocksInScene script scene manifest scene.blocks 0 st
      let st3 : CompileState :=
        { st2 with sceneTimings := st2.sceneTimings ++
            [{ sceneId := scene.id, startFrame := sceneStartFrame,
               endFrame := st2.currentFrame, scene := scene }] }
      processScenes script manifest rest st3

/-- Embeds `compile(script, options)`. -/
def compile (script : Script) (options : CompileOptions) : Timeline :=
  let st := processScenes script options.audioManifest script.scenes initCompileState
  let totalFrames := st.currentFrame
  let dialogueTracks : List Track :=
    [Track.audio st.audioClips, Track.subtitle st.subtitleClips,
     Track.character st.characterClips]
  let meta : TimelineMeta :=
    { fps := script.video.fps, width := script.video.width,
      height := script.video.height, totalFrames := totalFrames }
  match script.video.bgm with
  | some videoBgm =>
      let res := generateBgmTrack videoBgm st.sceneTimings totalFrames
        script.video.fps options.bgmDurationFrames
      let tracks :=
        if res.2.length > 0 then dialogueTracks ++ [Track.bgm res.2]
        else dialogueTracks
      { version := "0.1", meta := meta,
        assets := { audio := st.audioAssets, bgm := some res.1 }, tracks := tracks }
  | none =>
      { version := "0.1", meta := meta,
        assets := { audio := st.audioAssets, bgm := none }, tracks := dialogueTracks }

/-! Renderer-side BGM engine, embedding the `BgmTrack` component module. -/

/-- Talking interval; the field `stop` embeds the source field `end` (a Lean
keyword). -/
structure Interval where
  start : ℤ
  stop : ℤ
  deriving DecidableEq

/-- Embeds `getTalkingIntervals`: intervals of the `isTalking` character
clips. -/
def getTalkingIntervals (clips : List CharacterClip) : List Interval :=
  (clips.filter (fun c => c.state.isTalking)).map
    (fun c => { start := c.start, stop := c.start + c.duration })

/-- The merge loop of `stabilizeIntervals`: fold adjacent intervals whose gap
is at most `mergeGapFrames`. -/
def stabilizeMergeRun (mergeGapFrames : ℤ) (current : Interval) :
    List Interval → List Interval
  | [] => [current]
  | next :: rest =>
      if next.start ≤ current.stop + mergeGapFrames then
        stabilizeMergeRun mergeGapFrames
          { start := current.start, stop := max current.stop next.stop } rest
      else current :: stabilizeMergeRun mergeGapFrames next rest

/-- Embeds `stabilizeIntervals(intervals, mergeGapFrames, minHoldFrames,
maxEndFrame)`: sort by start (JS `sort` is stable), apply the minimum hold
capped at `maxEndFrame`, then merge nearby intervals. -/
def stabilizeIntervals (intervals : List Interval)
    (mergeGapFrames minHoldFrames maxEndFrame : ℤ) : List Interval :=
  if intervals.isEmpty then [] else
  let sorted := intervals.mergeSort (fun a b => decide (a.start ≤ b.start))
  let held := sorted.map (fun iv =>
    { start := iv.start,
      stop := min maxEndFrame (max iv.stop (iv.start + minHoldFrames)) : Interval })
  match held with
  | [] => []
  | h :: rest => stabilizeMergeRun mergeGapFrames h rest

/-- Loop segment emitted by the loop-segment generator (`LoopSegment`). -/
structure LoopSegment where
  clipOffset : ℤ
  duration : ℤ
  audioStartFrame : ℤ
  fadeInFrames : ℤ
  fadeOutFrames : ℤ
  deriving DecidableEq

/-- The `while (clipOffset < clipDuration)` loop of `generateLoopSegments`;
terminates because each kept iteration advances `clipOffset` by a positive
`segDur` (the source breaks when `segDur ≤ 0`, after pushing). -/
def genLoopAux (clipDuration loopStart loopEnd loopLength effectiveCrossfade : ℤ)
    (clipOffset : ℤ) (isFirst : Bool) : List LoopSegment :=
  if h : clipOffset < clipDuration then
    let audioStart := if isFirst then 0 else loopStart
    let segmentAudioLength := if isFirst then loopEnd else loopLength
    let remaining := clipDuration - clipOffset
    let segmentDuration := min segmentAudioLength remaining
    let isLast : Bool := decide (clipOffset + segmentDuration ≥ clipDuration)
    let seg : LoopSegment :=
      { clipOffset := clipOffset
        duration := segmentDuration + (if isLast then 0 else effectiveCrossfade)
        audioStartFrame := audioStart
        fadeInFrames := if isFirst then 0 else effectiveCrossfade
        fadeOutFrames := if isLast then 0 else effectiveCrossfade }
    if h2 : segmentDuration ≤ 0 then [seg]
    else seg :: genLoopAux clipDuration loopStart loopEnd loopLength effectiveCrossfade
      (clipOffset + segmentDuration) false
  else []
termination_by (clipDuration - clipOffset).toNat
decreasing_by
  have h3 : 0 < segmentDuration := lt_of_not_ge (fun hle => h2 (by exact hle))
  omega

/-- Embeds `generateLoopSegments(clipDuration, audioDurationFrames,
loopStartFrames, loopEndFrames, loopCrossfadeFrames, fps)`.  Note the invalid
loop-window branch only resets `loopEnd` to the audio duration; `loopStart`
keeps its (possibly nonzero or negative) value. -/
def generateLoopSegments (clipDuration audioDurationFrames : ℤ)
    (loopStartFrames loopEndFrames loopCrossfadeFrames : Option ℤ) (fps : ℤ) :
    List LoopSegment :=
  let loopStart := loopStartFrames.getD 0
  let loopEnd0 := loopEndFrames.getD audioDurationFrames
  let loopEnd :=
    if loopEnd0 ≤ loopStart ∨ loopStart < 0 ∨ loopEnd0 > audioDurationFrames then
      audioDurationFrames
    else loopEnd0
  let loopLength := loopEnd - loopStart
  if loopLength ≤ 0 then
    [{ clipOffset := 0, duration := min clipDuration audioDurationFrames,
       audioStartFrame := 0, fadeInFrames := 0, fadeOutFrames := 0 }]
  else
    let crossfade := loopCrossfadeFrames.getD 0
    let effectiveCrossfade := min crossfade (loopLength / 2)
    genLoopAux clipDuration loopStart loopEnd loopLength effectiveCrossfade 0 true

/-- Embeds `dbToGain(db) = 10^(clamp(db, -60, 6)/20)` from
`src/domain/audio.ts`, valued in the reals. -/
noncomputable def dbToGain (db : ℚ) : ℝ :=
  (10 : ℝ) ^ (((clamp db VOLUME_DB_MIN VOLUME_DB_MAX : ℚ) : ℝ) / 20)

/-- Embeds the renderer's `getBaseGain(clip)`: `volumeDb` first, then
`volume`, then `DEFAULT_BASE_DB`.  It reads only the clip — the asset's
`loudnessGainDb` is not an input. -/
noncomputable def getBaseGain (clip : BgmClip) : ℝ :=
  match clip.volumeDb with
  | some v => dbToGain (clamp v VOLUME_DB_MIN VOLUME_DB_MAX)
  | none =>
      match clip.volume with
      | some v => ((clamp v 0 1 : ℚ) : ℝ)
      | none => dbToGain DEFAULT_BASE_DB

/-- Embeds the renderer's `getIdleGain(clip, baseGain)`. -/
noncomputable def getIdleGain (clip : BgmClip) (baseGain : ℝ) : ℝ :=
  baseGain * dbToGain (clip.idleBoostDb.getD DEFAULT_IDLE_BOOST_DB)

/-- Embeds the renderer's `getTalkGain(clip, baseGain)` with its priority
ladder `duckDeltaDb > duckVolumeDb > duckVolume > DEFAULT_DUCK_DELTA_DB`. -/
noncomputable def getTalkGain (clip : BgmClip) (baseGain : ℝ) : ℝ :=
  match clip.ducking with
  | none => baseGain
  | some ducking =>
      if ducking.enabled = false then baseGain
      else
        match ducking.duckDeltaDb with
        | some delta => baseGain * dbToGain (clamp delta DUCK_DELTA_DB_MIN DUCK_DELTA_DB_MAX)
        | none =>
            match ducking.duckVolumeDb with
            | some v => dbToGain (clamp v VOLUME_DB_MIN VOLUME_DB_MAX)
            | none =>
                match ducking.duckVolume with
                | some v => baseGain * ((clamp v 0 1 : ℚ) : ℝ)
                | none => baseGain * dbToGain DEFAULT_DUCK_DELTA_DB

/-! Structural validators mirroring the zod schemas (what
`parseTimeline` / `parseScript` accept). -/

/-- Validates a timeline ducking object against `bgmDuckingSchema`. -/
def validBgmDucking (d : BgmDucking) : Bool :=
  d.duckDeltaDb.all (fun v => decide (DUCK_DELTA_DB_MIN ≤ v ∧ v ≤ 0)) &&
  d.duckVolumeDb.all (fun v => decide (VOLUME_DB_MIN ≤ v ∧ v ≤ VOLUME_DB_MAX)) &&
  d.duckVolume.all (fun v => decide (0 ≤ v ∧ v ≤ 1)) &&
  decide (0 ≤ d.attackFrames) && decide (0 ≤ d.releaseFrames) &&
  d.mergeGapFrames.all (fun v => decide (0 ≤ v)) &&
  d.minHoldFrames.all (fun v => decide (0 ≤ v))

/-- Validates a BGM clip against `bgmClipSchema`. -/
def validBgmClip (c : BgmClip) : Bool :=
  decide (0 ≤ c.start) && decide (0 < c.duration) &&
  c.audioOffsetFrames.all (fun v => decide (0 ≤ v)) &&
  c.volumeDb.all (fun v => decide (VOLUME_DB_MIN ≤ v ∧ v ≤ VOLUME_DB_MAX)) &&
  c.volume.all (fun v => decide (0 ≤ v ∧ v ≤ 1)) &&
  c.maxGainDb.all (fun v => decide (VOLUME_DB_MIN ≤ v ∧ v ≤ VOLUME_DB_MAX)) &&
  decide (0 ≤ c.fadeInFrames) && decide (0 ≤ c.fadeOutFrames) &&
  c.loopStartFrames.all (fun v => decide (0 ≤ v)) &&
  c.loopEndFrames.all (fun v => decide (0 ≤ v)) &&
  c.loopCrossfadeFrames.all (fun v => decide (0 ≤ v)) &&
  c.idleBoostDb.all (fun v => decide (VOLUME_DB_MIN ≤ v ∧ v ≤ mkRat 12 1)) &&
  c.ducking.all validBgmDucking &&
  c.transitionInFrames.all (fun v => decide (0 ≤ v)) &&
  c.transitionOutFrames.all (fun v => decide (0 ≤ v))

/-- Validates one track against `trackSchema`. -/
def validTrack : Track → Bool
  | Track.audio clips =>
      clips.all (fun c => decide (0 ≤ c.start) && decide (0 < c.duration))
  | Track.subtitle clips =>
      clips.all (fun c => decide (0 ≤ c.start) && decide (0 < c.duration))
  | Track.character clips =>
      clips.all (fun c => decide (0 ≤ c.start) && decide (0 < c.duration))
  | Track.bgm clips => clips.all validBgmClip

/-- Validates a whole Timeline against `timelineSchema` (the check performed
by `parseTimeline`). -/
def validateTimeline (tl : Timeline) : Bool :=
  (tl.version == "0.1") &&
  decide (0 < tl.meta.fps) && decide (0 < tl.meta.width) &&
  decide (0 < tl.meta.height) && decide (0 ≤ tl.meta.totalFrames) &&
  tl.assets.audio.all (fun p => decide (0 ≤ p.2.durationFrames)) &&
  (tl.assets.bgm.getD []).all (fun p =>
    p.2.durationFrames.all (fun v => decide (0 < v)) &&
    p.2.loudnessGainDb.all (fun v => decide (mkRat (-12) 1 ≤ v ∧ v ≤ mkRat 12 1))) &&
  tl.tracks.all validTrack

/-- Validates a script-level ducking config against
`bgmDuckingConfigSchema`. -/
def validBgmDuckingConfig (d : BgmDuckingConfig) : Bool :=
  d.duckDeltaDb.all (fun v => decide (mkRat (-60) 1 ≤ v ∧ v ≤ 0)) &&
  d.duckVolumeDb.all (fun v => decide (mkRat (-60) 1 ≤ v ∧ v ≤ mkRat 6 1)) &&
  d.duckVolume.all (fun v => decide (0 ≤ v ∧ v ≤ 1)) &&
  decide (0 ≤ d.attackSec) && decide (0 ≤ d.releaseSec) &&
  decide (0 ≤ d.mergeGapSec) && decide (0 ≤ d.minHoldSec)

/-- Validates a video-level BGM config against `bgmConfigSchema`. -/
def validBgmConfig (b : BgmConfig) : Bool :=
  b.volumeDb.all (fun v => decide (mkRat (-60) 1 ≤ v ∧ v ≤ mkRat 6 1)) &&
  b.volume.all (fun v => decide (0 ≤ v ∧ v ≤ 1)) &&
  decide (mkRat (-60) 1 ≤ b.maxGainDb ∧ b.maxGainDb ≤ mkRat 6 1) &&
  decide (0 ≤ b.fadeInSec) && decide (0 ≤ b.fadeOutSec) &&
  b.loopStartSec.all (fun v => decide (0 ≤ v)) &&
  b.loopEndSec.all (fun v => decide (0 ≤ v)) &&
  decide (0 ≤ b.loopCrossfadeSec) &&
  b.idleBoostDb.all (fun v => decide (mkRat (-60) 1 ≤ v ∧ v ≤ mkRat 12 1)) &&
  b.ducking.all validBgmDuckingConfig

/-- Validates a scene-level BGM override against `sceneBgmOverrideSchema`. -/
def validSceneBgmOverride (o : SceneBgmOverride) : Bool :=
  o.volumeDb.all (fun v => decide (mkRat (-60) 1 ≤ v ∧ v ≤ mkRat 6 1)) &&
  o.volume.all (fun v => decide (0 ≤ v ∧ v ≤ 1)) &&
  o.maxGainDb.all (fun v => decide (mkRat (-60) 1 ≤ v ∧ v ≤ mkRat 6 1)) &&
  o.fadeInSec.all (fun v => decide (0 ≤ v)) &&
  o.fadeOutSec.all (fun v => decide (0 ≤ v)) &&
  o.loopStartSec.all (fun v => decide (0 ≤ v)) &&
  o.loopEndSec.all (fun v => decide (0 ≤ v)) &&
  o.loopCrossfadeSec.all (fun v => decide (0 ≤ v)) &&
  o.idleBoostDb.all (fun v => decide (mkRat (-60) 1 ≤ v ∧ v ≤ mkRat 12 1)) &&
  o.ducking.all validBgmDuckingConfig &&
  o.transitionSec.all (fun v => decide (0 ≤ v))

/-- Validates one block against `blockSchema`. -/
def validBlock : Block → Bool
  | Block.dialogue b => decide (1 ≤ b.text.length) && b.pauseSec.all (fun v => decide (0 ≤ v))

/-- Validates a scene against `sceneSchema`. -/
def validScene (s : Scene) : Bool :=
  (s.style.bind (·.bgm)).all validSceneBgmOverride && s.blocks.all validBlock

/-- Validates a whole Script against `scriptSchema` (the check performed by
`parseScript`). -/
def validScript (s : Script) : Bool :=
  (s.version == "0.1") &&
  decide (0 < s.video.fps) && decide (0 < s.video.width) &&
  decide (0 < s.video.height) && decide (0 ≤ s.video.defaultPauseSec) &&
  s.video.bgm.all validBgmConfig &&
  s.cast.all (fun p => decide (0 ≤ p.2.speakerId)) &&
  decide (1 ≤ s.scenes.length) &&
  s.scenes.all validScene

/-! Derived quantities of the dialogue rule, for stating the claims. -/

/-- The dialogue payload of a block (the union has a single variant). -/
def blockOf : Block → DialogueBlock
  | Block.dialogue db => db

/-- Voice duration of a dialogue block, as computed by
`processDialogueBlock`: the bound manifest duration when positive, else the
two-second fallback. -/
def blockVoiceDurationFrames (script : Script) (scene : Scene)
    (manifest : List AudioManifestItem) (blockIndex : ℕ) (b : DialogueBlock) : ℤ :=
  match findAudioInManifest b manifest (generateAudioKey scene.id blockIndex) with
  | some item =>
      if item.durationInSeconds > 0 then secToFrames item.durationInSeconds script.video.fps
      else script.video.fps * 2
  | none => script.video.fps * 2

/-- Pause duration of a dialogue block:
`ceil((pauseSec ?? defaultPauseSec) · fps)`. -/
def blockPauseFrames (script : Script) (b : DialogueBlock) : ℤ :=
  secToFrames (b.pauseSec.getD script.video.defaultPauseSec) script.video.fps

/-- Sum of `totalDurationFrames` over a list of blocks starting at local
index `i`. -/
def sumBlockTotals (script : Script) (scene : Scene)
    (manifest : List AudioManifestItem) : List Block → ℕ → ℤ
  | [], _ => 0
  | b :: rest, i =>
      (blockVoiceDurationFrames script scene manifest i (blockOf b) +
        blockPauseFrames script (blockOf b)) +
      sumBlockTotals script scene manifest rest (i + 1)

/-- Sum of all block durations of a script: the claimed value of
`meta.totalFrames`. -/
def scriptTotalFrames (script : Script) (manifest : List AudioManifestItem) : ℤ :=
  (script.scenes.map (fun sc => sumBlockTotals script sc manifest sc.blocks 0)).sum

/-- Number of dialogue blocks in a script. -/
def totalBlockCount (script : Script) : ℕ :=
  (script.scenes.map (fun sc => sc.blocks.length)).sum

/-- Number of dialogue blocks with a positive pause window. -/
def pausedBlockCount (script : Script) : ℕ :=
  (script.scenes.map (fun sc =>
    (sc.blocks.filter (fun b => decide (0 < blockPauseFrames script (blockOf b)))).length)).sum

theorem processDialogueBlock_eq (b : DialogueBlock) (ctx : DialogueContext) :
    processDialogueBlock b ctx =
      (let d := blockVoiceDurationFrames ctx.script ctx.scene ctx.audioManifest ctx.blockIndex b
      let p := blockPauseFrames ctx.script b
      { audioAssetId := "audio_" ++ padStart3 (ctx.globalBlockIndex + 1)
        audioAsset :=
          { src :=
              match findAudioInManifest b ctx.audioManifest
                  (generateAudioKey ctx.scene.id ctx.blockIndex) with
              | some item =>
                  if item.durationInSeconds > 0 then item.audioSrc
                  else "audio/" ++ padStart3 (ctx.globalBlockIndex + 1) ++ ".wav"
              | none => "audio/" ++ padStart3 (ctx.globalBlockIndex + 1) ++ ".wav"
            durationFrames := d }
        audioClip :=
          { assetId := "audio_" ++ padStart3 (ctx.globalBlockIndex + 1)
            start := ctx.currentFrame, duration := d }
        subtitleClip := { start := ctx.currentFrame, duration := d + p, text := b.text }
        characterClips :=
          { start := ctx.currentFrame, duration := d, characterId := b.speaker,
            state := { isTalking := true } } ::
          (if 0 < p then
            [{ start := ctx.currentFrame + d, duration := p, characterId := b.speaker,
               state := { isTalking := false } }]
          else [])
        totalDurationFrames := d + p }) := by
  unfold processDialogueBlock blockVoiceDurationFrames blockPauseFrames
  cases hfind : findAudioInManifest b ctx.audioManifest
      (generateAudioKey ctx.scene.id ctx.blockIndex) with
  | none => simp only [hfind]; split <;> rfl
  | some item =>
      simp only [hfind]
      by_cases hdur : item.durationInSeconds > 0
      · simp only [if_pos hdur]; split <;> rfl
      · simp only [if_neg hdur]; split <;> rfl

theorem processDialogueBlock_total (b : DialogueBlock) (ctx : DialogueContext) :
    (processDialogueBlock b ctx).totalDurationFrames =
      blockVoiceDurationFrames ctx.script ctx.scene ctx.audioManifest ctx.blockIndex b +
      blockPauseFrames ctx.script b := by
  rw [processDialogueBlock_eq]

theorem processBlocksInScene_currentFrame (script : Script) (scene : Scene)
    (manifest : List AudioManifestItem) :
    ∀ (blocks : List Block) (i : ℕ) (st : CompileState),
      (processBlocksInScene script scene manifest blocks i st).currentFrame =
        st.currentFrame + sumBlockTotals script scene manifest blocks i := by
  intro blocks
  induction blocks with
  | nil => intro i st; simp [processBlocksInScene, sumBlockTotals]
  | cons b rest ih =>
      intro i st
      cases b with
      | dialogue db =>
          rw [processBlocksInScene, ih]
          simp only [processBlock, processDialogueBlock_total, sumBlockTotals, blockOf]
          ring

theorem processBlocksInScene_sceneTimings (script : Script) (scene : Scene)
    (manifest : List AudioManifestItem) :
    ∀ (blocks : List Block) (i : ℕ) (st : CompileState),
      (processBlocksInScene script scene manifest blocks i st).sceneTimings =
        st.sceneTimings := by
  intro blocks
  induction blocks with
  | nil => intro i st; simp [processBlocksInScene]
  | cons b rest ih => intro i st; rw [processBlocksInScene, ih]

theorem processBlocksInScene_audioLen (script : Script) (scene : Scene)
    (manifest : List AudioManifestItem) :
    ∀ (blocks : List Block) (i : ℕ) (st : CompileState),
      (processBlocksInScene script scene manifest blocks i st).audioClips.length =
        st.audioClips.length + blocks.length := by
  intro blocks
  induction blocks with
  | nil => intro i st; simp [processBlocksInScene]
  | cons b rest ih =>
      intro i st
      rw [processBlocksInScene, ih]
      simp
      omega

theorem processBlocksInScene_subtitleLen (script : Script) (scene : Scene)
    (manifest : List AudioManifestItem) :
    ∀ (blocks : List Block) (i : ℕ) (st : CompileState),
      (processBlocksInScene script scene manifest blocks i st).subtitleClips.length =
        st.subtitleClips.length + blocks.length := by
  intro blocks
  induction blocks with
  | nil => intro i st; simp [processBlocksInScene]
  | cons b rest ih =>
      intro i st
      rw [processBlocksInScene, ih]
      simp
      omega

/-- Character clips contributed by a list of blocks: two per block whose
pause window is positive, one otherwise. -/
def charClipCount (script : Script) : List Block → ℕ
  | [] => 0
  | b :: rest =>
      (if 0 < blockPauseFrames script (blockOf b) then 2 else 1) + charClipCount script rest

theorem processDialogueBlock_charLen (b : DialogueBlock) (ctx : DialogueContext) :
    (processDialogueBlock b ctx).characterClips.length =
      if 0 < blockPauseFrames ctx.script b then 2 else 1 := by
  rw [processDialogueBlock_eq]
  by_cases h : 0 < blockPauseFrames ctx.script b <;> simp [h]

theorem processBlocksInScene_charLen (script : Script) (scene : Scene)
    (manifest : List AudioManifestItem) :
    ∀ (blocks : List Block) (i : ℕ) (st : CompileState),
      (processBlocksInScene script scene manifest blocks i st).characterClips.length =
        st.characterClips.length + charClipCount script blocks := by
  intro blocks
  induction blocks with
  | nil => intro i st; simp [processBlocksInScene, charClipCount]
  | cons b rest ih =>
      intro i st
      cases b with
      | dialogue db =>
          rw [processBlocksInScene, ih]
          simp only [processBlock, charClipCount, List.length_append,
            processDialogueBlock_charLen, blockOf]
          omega

theorem charClipCount_eq (script : Script) :
    ∀ blocks : List Block,
      charClipCount script blocks =
        blocks.length +
          (blocks.filter (fun b => decide (0 < blockPauseFrames script (blockOf b)))).length := by
  intro blocks
  induction blocks with
  | nil => simp [charClipCount]
  | cons b rest ih =>
      by_cases h : 0 < blockPauseFrames script (blockOf b) <;>
        simp [charClipCount, h, ih] <;> omega

theorem processScenes_currentFrame (script : Script) (manifest : List AudioManifestItem) :
    ∀ (scenes : List Scene) (st : CompileState),
      (processScenes script manifest scenes st).currentFrame =
        st.currentFrame +
          (scenes.map (fun sc => sumBlockTotals script sc manifest sc.blocks 0)).sum := by
  intro scenes
  induction scenes with
  | nil => intro st; simp [processScenes]
  | cons sc rest ih =>
      intro st
      rw [processScenes, ih]
      simp [processBlocksInScene_currentFrame]
      ring

theorem processScenes_audioLen (script : Script) (manifest : List AudioManifestItem) :
    ∀ (scenes : List Scene) (st : CompileState),
      (processScenes script manifest scenes st).audioClips.length =
        st.audioClips.length + (scenes.map (fun sc => sc.blocks.length)).sum := by
  intro scenes
  induction scenes with
  | nil => intro st; simp [processScenes]
  | cons sc rest ih =>
      intro st
      rw [processScenes, ih]
      simp [processBlocksInScene_audioLen]
      omega

theorem processScenes_subtitleLen (script : Script) (manifest : List AudioManifestItem) :
    ∀ (scenes : List Scene) (st : CompileState),
      (processScenes script manifest scenes st).subtitleClips.length =
        st.subtitleClips.length + (scenes.map (fun sc => sc.blocks.length)).sum := by
  intro scenes
  induction scenes with
  | nil => intro st; simp [processScenes]
  | cons sc rest ih =>
      intro st
      rw [processScenes, ih]
      simp [processBlocksInScene_subtitleLen]
      omega

theorem processScenes_charLen (script : Script) (manifest : List AudioManifestItem) :
    ∀ (scenes : List Scene) (st : CompileState),
      (processScenes script manifest scenes st).characterClips.length =
        st.characterClips.length + (scenes.map (fun sc => charClipCount script sc.blocks)).sum := by
  intro scenes
  induction scenes with
  | nil => intro st; simp [processScenes]
  | cons sc rest ih =>
      intro st
      rw [processScenes, ih]
      simp [processBlocksInScene_charLen]
      omega

theorem compile_tracks_shape (script : Script) (options : CompileOptions) :
    ∃ rest, (compile script options).tracks =
      Track.audio (processScenes script options.audioManifest script.scenes
        initCompileState).audioClips ::
      Track.subtitle (processScenes script options.audioManifest script.scenes
        initCompileState).subtitleClips ::
      Track.character (processScenes script options.audioManifest script.scenes
        initCompileState).characterClips :: rest := by
  unfold compile
  cases hbgm : script.video.bgm with
  | none => exact ⟨[], rfl⟩
  | some vb =>
      by_cases hlen :
          (generateBgmTrack vb
            (processScenes script options.audioManifest script.scenes
              initCompileState).sceneTimings
            (processScenes script options.audioManifest script.scenes
              initCompileState).currentFrame
            script.video.fps options.bgmDurationFrames).2.length > 0
      · refine ⟨[Track.bgm (generateBgmTrack vb
            (processScenes script options.audioManifest script.scenes
              initCompileState).sceneTimings
            (processScenes script options.audioManifest script.scenes
              initCompileState).currentFrame
            script.video.fps options.bgmDurationFrames).2], ?_⟩
        simp only [if_pos hlen]
        rfl
      · refine ⟨[], ?_⟩
        simp only [if_neg hlen]

/-- Claim C3: a dialogue block processed at frame cursor `C` with voice
duration `d` and pause duration `p = ceil((pauseSec ?? defaultPauseSec)·fps)`
yields exactly one audio clip spanning `[C, C+d)`, exactly one subtitle clip
spanning `[C, C+d+p)` carrying the block's text, exactly one talking
character clip spanning `[C, C+d)`, and an idle character clip spanning
`[C+d, C+d+p)` iff `p > 0`; at the compile level the audio and subtitle
tracks hold one clip per block and the character track one clip per block
plus one per block with a positive pause. -/
theorem dialogue_block_emission :
    (∀ (b : DialogueBlock) (ctx : DialogueContext),
      let d := blockVoiceDurationFrames ctx.script ctx.scene ctx.audioManifest ctx.blockIndex b
      let p := blockPauseFrames ctx.script b
      let r := processDialogueBlock b ctx
      r.audioClip = { assetId := r.audioAssetId, start := ctx.currentFrame, duration := d } ∧
      r.subtitleClip = { start := ctx.currentFrame, duration := d + p, text := b.text } ∧
      r.characterClips =
        { start := ctx.currentFrame, duration := d, characterId := b.speaker,
          state := { isTalking := true } } ::
        (if 0 < p then
          [{ start := ctx.currentFrame + d, duration := p, characterId := b.speaker,
             state := { isTalking := false } }]
        else []) ∧
      r.totalDurationFrames = d + p) ∧
    (∀ (script : Script) (options : CompileOptions),
      ∃ aud subt chars rest,
        (compile script options).tracks =
          Track.audio aud :: Track.subtitle subt :: Track.character chars :: rest ∧
        aud.length = totalBlockCount script ∧
        subt.length = totalBlockCount script ∧
        chars.length = totalBlockCount script + pausedBlockCount script) := by
  constructor
  · intro b ctx
    refine ⟨?_, ?_, ?_, ?_⟩ <;> rw [processDialogueBlock_eq]
  · intro script options
    have hchars : ∀ st0 : CompileState,
        (processScenes script options.audioManifest script.scenes st0).characterClips.length =
          st0.characterClips.length + totalBlockCount script + pausedBlockCount script := by
      intro st0
      rw [processScenes_charLen]
      have : (script.scenes.map (fun sc => charClipCount script sc.blocks)).sum =
          totalBlockCount script + pausedBlockCount script := by
        unfold totalBlockCount pausedBlockCount
        induction script.scenes with
        | nil => simp
        | cons sc rest ih => simp [charClipCount_eq, ih]; omega
      omega
    have hA := processScenes_audioLen script options.audioManifest script.scenes initCompileState
    have hS := processScenes_subtitleLen script options.audioManifest script.scenes initCompileState
    have hC := hchars initCompileState
    simp only [initCompileState, List.length_nil, Nat.zero_add] at hA hS hC
    obtain ⟨rest, hshape⟩ := compile_tracks_shape script options
    refine ⟨_, _, _, rest, hshape, ?_, ?_, ?_⟩
    · simpa [totalBlockCount, initCompileState] using hA
    · simpa [totalBlockCount, initCompileState] using hS
    · simpa [initCompileState] using hC

/-- Claim C7: for every valid Script and audio manifest, the compiled
Timeline's `meta.totalFrames` equals the sum over all dialogue blocks of
`durationFrames + pauseFrames`, i.e. the frame cursor after the last emitted
block. -/
theorem compile_totalFrames (script : Script) (options : CompileOptions)
    (hv : validScript script = true) :
    (compile script options).meta.totalFrames =
      scriptTotalFrames script options.audioManifest := by
  unfold compile
  cases hbgm : script.video.bgm with
  | none =>
      simp [processScenes_currentFrame, initCompileState, scriptTotalFrames]
  | some vb =>
      simp [processScenes_currentFrame, initCompileState, scriptTotalFrames]

/-- Clip used to exercise `getBaseGain`: `volumeDb = -12` set, nothing
else relevant. -/
def c4Clip : BgmClip :=
  { assetId := "bgm_0", start := 0, duration := 1, audioOffsetFrames := none,
    volumeDb := some (mkRat (-12) 1), volume := none, maxGainDb := none,
    fadeInFrames := 1, fadeOutFrames := 1, loop := true,
    loopStartFrames := none, loopEndFrames := none, loopCrossfadeFrames := none,
    idleBoostDb := none, ducking := none,
    transitionInFrames := none, transitionOutFrames := none }

theorem mkRat_neg12 : (mkRat (-12) 1 : ℚ) = -12 := by
  rw [Rat.mkRat_eq_div]; norm_num

theorem mkRat_6 : (mkRat 6 1 : ℚ) = 6 := by
  rw [Rat.mkRat_eq_div]; norm_num

/-- Claim C4 (code bug): the renderer's `getBaseGain` is a function of the
clip alone and never multiplies by the asset's `loudnessGainDb`: on a clip
with `volumeDb = -12` whose asset carries `loudnessGainDb = 6`, the code
yields `dbToGain (-12)`, which differs from the claimed
`dbToGain (-12) * dbToGain 6`. -/
theorem getBaseGain_ignores_loudness :
    getBaseGain c4Clip = dbToGain (mkRat (-12) 1) ∧
    dbToGain (mkRat (-12) 1) ≠ dbToGain (mkRat (-12) 1) * dbToGain (mkRat 6 1) := by
  have hm12 : (mkRat (-12) 1 : ℚ) = -12 := mkRat_neg12
  have hm6 : (mkRat 6 1 : ℚ) = 6 := mkRat_6
  have hmin : (VOLUME_DB_MIN : ℚ) = -60 := by
    rw [VOLUME_DB_MIN, Rat.mkRat_eq_div]; norm_num
  have hmax : (VOLUME_DB_MAX : ℚ) = 6 := by
    rw [VOLUME_DB_MAX, Rat.mkRat_eq_div]; norm_num
  have hclamp12 : clamp (mkRat (-12) 1) VOLUME_DB_MIN VOLUME_DB_MAX = mkRat (-12) 1 := by
    rw [clamp, hm12, hmin, hmax]; norm_num
  have hclamp6 : clamp (mkRat 6 1) VOLUME_DB_MIN VOLUME_DB_MAX = mkRat 6 1 := by
    rw [clamp, hm6, hmin, hmax]; norm_num
  constructor
  · show getBaseGain c4Clip = dbToGain (mkRat (-12) 1)
    rw [getBaseGain]
    simp only [c4Clip]
    rw [hclamp12]
  · have hg12 : dbToGain (mkRat (-12) 1) = (10 : ℝ) ^ ((-12 : ℝ) / 20) := by
      rw [dbToGain, hclamp12, hm12]; norm_num
    have hg6 : dbToGain (mkRat 6 1) = (10 : ℝ) ^ ((6 : ℝ) / 20) := by
      rw [dbToGain, hclamp6, hm6]; norm_num
    rw [hg12, hg6]
    have hpos : (0 : ℝ) < (10 : ℝ) ^ ((-12 : ℝ) / 20) :=
      Real.rpow_pos_of_pos (by norm_num) _
    have hone : (1 : ℝ) < (10 : ℝ) ^ ((6 : ℝ) / 20) := by
      rw [show ((6 : ℝ) / 20) = (3 / 10 : ℝ) by norm_num]
      have := Real.one_lt_rpow_iff_of_pos (show (0 : ℝ) < 10 by norm_num) (y := (3 / 10 : ℝ))
      rw [this]
      norm_num
    exact ne_of_lt (lt_mul_of_one_lt_right hpos hone)

/-- Claim C5 (code bug): on an invalid loop window the generator only resets
`loopEnd` to the audio duration and keeps `loopStart`; with clip duration
300, audio duration 100, `loopStart = 50 > loopEnd = 40`, the segments after
the first start at audio frame 50 with loop length 50, not at frame 0 with
length 100 as the full-audio fallback (second equation) would give. -/
theorem generateLoopSegments_invalid_window_eval :
    generateLoopSegments 300 100 (some 50) (some 40) none 30 =
      [{ clipOffset := 0, duration := 100, audioStartFrame := 0,
         fadeInFrames := 0, fadeOutFrames := 0 },
       { clipOffset := 100, duration := 50, audioStartFrame := 50,
         fadeInFrames := 0, fadeOutFrames := 0 },
       { clipOffset := 150, duration := 50, audioStartFrame := 50,
         fadeInFrames := 0, fadeOutFrames := 0 },
       { clipOffset := 200, duration := 50, audioStartFrame := 50,
         fadeInFrames := 0, fadeOutFrames := 0 },
       { clipOffset := 250, duration := 50, audioStartFrame := 50,
         fadeInFrames := 0, fadeOutFrames := 0 }] ∧
    generateLoopSegments 300 100 none none none 30 =
      [{ clipOffset := 0, duration := 100, audioStartFrame := 0,
         fadeInFrames := 0, fadeOutFrames := 0 },
       { clipOffset := 100, duration := 100, audioStartFrame := 0,
         fadeInFrames := 0, fadeOutFrames := 0 },
       { clipOffset := 200, duration := 100, audioStartFrame := 0,
         fadeInFrames := 0, fadeOutFrames := 0 }] := by
  constructor <;>
  · rw [generateLoopSegments]
    norm_num
    repeat (rw [genLoopAux.eq_def]; norm_num)

theorem secToFrames_pos {q : ℚ} {fps : ℤ} (hq : 0 < q) (hf : 0 < fps) :
    0 < secToFrames q fps := by
  rw [secToFrames_eq_ceil]
  rw [Int.ceil_pos]
  exact mul_pos hq (by exact_mod_cast hf)

theorem secToFrames_nonneg {q : ℚ} {fps : ℤ} (hq : 0 ≤ q) (hf : 0 ≤ fps) :
    0 ≤ secToFrames q fps := by
  rw [secToFrames_eq_ceil]
  exact Int.ceil_nonneg (mul_nonneg hq (by exact_mod_cast hf))

theorem blockVoice_pos (script : Script) (scene : Scene)
    (manifest : List AudioManifestItem) (i : ℕ) (b : DialogueBlock)
    (hf : 0 < script.video.fps) :
    0 < blockVoiceDurationFrames script scene manifest i b := by
  unfold blockVoiceDurationFrames
  cases hfind : findAudioInManifest b manifest (generateAudioKey scene.id i) with
  | none =>
      show 0 < script.video.fps * 2
      omega
  | some item =>
      show 0 < if item.durationInSeconds > 0 then
        secToFrames item.durationInSeconds script.video.fps else script.video.fps * 2
      by_cases hdur : item.durationInSeconds > 0
      · rw [if_pos hdur]; exact secToFrames_pos hdur hf
      · rw [if_neg hdur]; omega

theorem blockPause_nonneg (script : Script) (b : DialogueBlock)
    (hf : 0 < script.video.fps) (hd : 0 ≤ script.video.defaultPauseSec)
    (hb : ∀ q, b.pauseSec = some q → 0 ≤ q) :
    0 ≤ blockPauseFrames script b := by
  unfold blockPauseFrames
  cases hp : b.pauseSec with
  | none => simp only [hp, Option.getD_none]; exact secToFrames_nonneg hd (le_of_lt hf)
  | some q =>
      simp only [hp, Option.getD_some]
      exact secToFrames_nonneg (hb q hp) (le_of_lt hf)

theorem recordSet_all {α : Type} (P : String × α → Prop)
    (r : List (String × α)) (k : String) (v : α)
    (hr : ∀ p ∈ r, P p) (hv : P (k, v)) :
    ∀ p ∈ recordSet r k v, P p := by
  unfold recordSet
  split
  · intro p hp
    obtain ⟨q, hq, hpq⟩ := List.mem_map.mp hp
    by_cases hk : (q.1 == k) = true
    · rw [if_pos hk] at hpq; exact hpq ▸ hv
    · rw [if_neg hk] at hpq; exact hpq ▸ hr q hq
  · intro p hp
    rcases List.mem_append.mp hp with h | h
    · exact hr p h
    · rcases List.mem_singleton.mp h with rfl
      exact hv

/-- Validity of the running compile state: all emitted clips and assets obey
the Timeline schema bounds and the cursor is non-negative. -/
def StateValid (st : CompileState) : Prop :=
  (∀ c ∈ st.audioClips, 0 ≤ c.start ∧ 0 < c.duration) ∧
  (∀ c ∈ st.subtitleClips, 0 ≤ c.start ∧ 0 < c.duration) ∧
  (∀ c ∈ st.characterClips, 0 ≤ c.start ∧ 0 < c.duration) ∧
  (∀ p ∈ st.audioAssets, 0 ≤ p.2.durationFrames) ∧
  0 ≤ st.currentFrame

theorem processBlocksInScene_valid (script : Script) (scene : Scene)
    (manifest : List AudioManifestItem)
    (hf : 0 < script.video.fps) (hd : 0 ≤ script.video.defaultPauseSec) :
    ∀ (blocks : List Block) (i : ℕ) (st : CompileState),
      (∀ b ∈ blocks, validBlock b = true) → StateValid st →
      StateValid (processBlocksInScene script scene manifest blocks i st) := by
  intro blocks
  induction blocks with
  | nil => intro i st _ hst; simpa [processBlocksInScene] using hst
  | cons b rest ih =>
      intro i st hbl hst
      obtain ⟨hA, hS, hC, hAs, hFr⟩ := hst
      cases b with
      | dialogue db =>
          rw [processBlocksInScene]
          have hvb := hbl (Block.dialogue db) (List.mem_cons_self _ _)
          have hpq : ∀ q, db.pauseSec = some q → 0 ≤ q := by
            intro q hq
            simp only [validBlock, Bool.and_eq_true, decide_eq_true_eq] at hvb
            have := hvb.2
            rw [hq] at this
            simpa using this
          have hdpos := blockVoice_pos script scene manifest i db hf
          have hpnn := blockPause_nonneg script db hf hd hpq
          have hEq := processDialogueBlock_eq db
            { script := script, scene := scene, audioManifest := manifest,
              currentFrame := st.currentFrame, blockIndex := i,
              globalBlockIndex := st.globalBlockIndex }
          apply ih
          · intro b hb; exact hbl b (List.mem_cons_of_mem _ hb)
          · refine ⟨?_, ?_, ?_, ?_, ?_⟩ <;> simp only [processBlock, hEq]
            · intro c hc
              rcases List.mem_append.mp hc with h | h
              · exact hA c h
              · rcases List.mem_singleton.mp h with rfl
                exact ⟨hFr, hdpos⟩
            · intro c hc
              rcases List.mem_append.mp hc with h | h
              · exact hS c h
              · rcases List.mem_singleton.mp h with rfl
                refine ⟨hFr, ?_⟩
                show (0 : ℤ) < blockVoiceDurationFrames script scene manifest i db +
                  blockPauseFrames script db
                omega
            · intro c hc
              rcases List.mem_append.mp hc with h | h
              · exact hC c h
              · by_cases hp : 0 < blockPauseFrames script db
                · rw [if_pos hp] at h
                  rcases List.mem_cons.mp h with rfl | h2
                  · exact ⟨hFr, hdpos⟩
                  · rcases List.mem_singleton.mp h2 with rfl
                    exact ⟨add_nonneg hFr (le_of_lt hdpos), hp⟩
                · rw [if_neg hp] at h
                  rcases List.mem_cons.mp h with rfl | h2
                  · exact ⟨hFr, hdpos⟩
                  · simp at h2
            · apply recordSet_all _ _ _ _ hAs
              exact le_of_lt hdpos
            · have : (0 : ℤ) ≤ st.currentFrame +
                  (blockVoiceDurationFrames script scene manifest i db +
                    blockPauseFrames script db) := by omega
              exact this

theorem processScenes_valid (script : Script) (manifest : List AudioManifestItem)
    (hf : 0 < script.video.fps) (hd : 0 ≤ script.video.defaultPauseSec) :
    ∀ (scenes : List Scene) (st : CompileState),
      (∀ sc ∈ scenes, ∀ b ∈ sc.blocks, validBlock b = true) → StateValid st →
      StateValid (processScenes script manifest scenes st) := by
  intro scenes
  induction scenes with
  | nil => intro st _ hst; simpa [processScenes] using hst
  | cons sc rest ih =>
      intro st hsc hst
      rw [processScenes]
      apply ih
      · intro s hs; exact hsc s (List.mem_cons_of_mem _ hs)
      · have h2 := processBlocksInScene_valid script sc manifest hf hd sc.blocks 0 st
          (hsc sc (List.mem_cons_self _ _)) hst
        obtain ⟨hA, hS, hC, hAs, hFr⟩ := h2
        exact ⟨hA, hS, hC, hAs, hFr⟩

/-- Claim C6, amended: a dialogue block with no manifest match, or whose
match has a non-positive `durationInSeconds`, is emitted (no exception) with
the two-second fallback duration `fps * 2` and the synthesized
`audio/NNN.wav` source; and compilation of any valid Script without BGM
yields a Timeline passing Timeline validation.  The original claim's
unrestricted validation conjunct is false: with BGM, a valid script with an
unbound dialogue block and a trailing blockless scene carrying a BGM
settings change compiles to a zero-duration BGM clip, which Timeline
validation rejects (see the counterexample below). -/
theorem dialogue_fallback_and_validation :
    (∀ (b : DialogueBlock) (ctx : DialogueContext),
      (∀ it, findAudioInManifest b ctx.audioManifest
          (generateAudioKey ctx.scene.id ctx.blockIndex) = some it →
        it.durationInSeconds ≤ 0) →
      (processDialogueBlock b ctx).audioAsset =
        { src := "audio/" ++ padStart3 (ctx.globalBlockIndex + 1) ++ ".wav",
          durationFrames := ctx.script.video.fps * 2 } ∧
      (processDialogueBlock b ctx).audioClip.duration = ctx.script.video.fps * 2) ∧
    (∀ (script : Script) (options : CompileOptions),
      validScript script = true → script.video.bgm = none →
      validateTimeline (compile script options) = true) := by
  constructor
  · intro b ctx h
    rw [processDialogueBlock_eq]
    cases hfind : findAudioInManifest b ctx.audioManifest
        (generateAudioKey ctx.scene.id ctx.blockIndex) with
    | none =>
        constructor
        · simp [blockVoiceDurationFrames, hfind]
        · simp [blockVoiceDurationFrames, hfind]
    | some it =>
        have hle : ¬ (it.durationInSeconds > 0) := not_lt.mpr (h it hfind)
        constructor
        · simp [blockVoiceDurationFrames, hfind, hle]
        · simp [blockVoiceDurationFrames, hfind, hle]
  · intro script options hv hbgm
    have hv' := hv
    simp only [validScript, Bool.and_eq_true, decide_eq_true_eq, beq_iff_eq,
      and_assoc, List.all_eq_true] at hv'
    obtain ⟨hver, hfps, hw, hh, hps, hbgmv, hcast, hlen, hscenes⟩ := hv'
    have hblocks : ∀ sc ∈ script.scenes, ∀ b ∈ sc.blocks, validBlock b = true := by
      intro sc hsc b hb
      have := hscenes sc hsc
      simp only [validScene, Bool.and_eq_true, List.all_eq_true] at this
      exact this.2 b hb
    have hinit : StateValid initCompileState := by
      refine ⟨?_, ?_, ?_, ?_, le_refl 0⟩ <;> intro c hc <;> simp [initCompileState] at hc
    have hstv := processScenes_valid script options.audioManifest hfps hps
      script.scenes initCompileState hblocks hinit
    obtain ⟨hA, hS, hC, hAs, hFr⟩ := hstv
    unfold compile
    rw [hbgm]
    unfold validateTimeline
    simp only [Bool.and_eq_true, decide_eq_true_eq, beq_iff_eq, and_assoc,
      List.all_eq_true]
    refine ⟨trivial, hfps, hw, hh, hFr, ?_, ?_, ?_⟩
    · intro p hp
      simpa using hAs p hp
    · simp
    · intro t ht
      simp only [List.mem_cons, List.mem_singleton] at ht
      rcases ht with rfl | rfl | rfl | h
      · simp only [validTrack, List.all_eq_true]
        intro c hc
        have := hA c hc
        simp only [Bool.and_eq_true, decide_eq_true_eq]
        exact this
      · simp only [validTrack, List.all_eq_true]
        intro c hc
        have := hS c hc
        simp only [Bool.and_eq_true, decide_eq_true_eq]
        exact this
      · simp only [validTrack, List.all_eq_true]
        intro c hc
        have := hC c hc
        simp only [Bool.and_eq_true, decide_eq_true_eq]
        exact this
      · simp at h

/-! Concrete fixtures for the witnesses. -/

def wFallbackBlock : DialogueBlock :=
  { speaker := "a", text := "hi", pauseSec := none, id := none,
    audioKey := none, fileName := none }

def wScene0 : Scene :=
  { id := "s0", style := none, blocks := [Block.dialogue wFallbackBlock] }

def wScript : Script :=
  { version := "0.1",
    video := { fps := 30, width := 1920, height := 1080,
               defaultPauseSec := mkRat 0 1, bgm := none },
    cast := [], scenes := [wScene0] }

def wFallbackCtx : DialogueContext :=
  { script := wScript, scene := wScene0, audioManifest := [],
    currentFrame := 0, blockIndex := 0, globalBlockIndex := 0 }

def wOpts : CompileOptions :=
  { audioManifest := [], bgmDurationFrames := fun _ => none }

theorem dialogue_fallback_and_validation_witness :
    ((processDialogueBlock wFallbackBlock wFallbackCtx).audioAsset =
      { src := "audio/" ++ padStart3 (wFallbackCtx.globalBlockIndex + 1) ++ ".wav",
        durationFrames := wFallbackCtx.script.video.fps * 2 } ∧
      (processDialogueBlock wFallbackBlock wFallbackCtx).audioClip.duration =
        wFallbackCtx.script.video.fps * 2) ∧
    validScript wScript = true ∧
    validateTimeline (compile wScript wOpts) = true :=
  ⟨dialogue_fallback_and_validation.1 wFallbackBlock wFallbackCtx
      (fun it h => by
        rw [show findAudioInManifest wFallbackBlock wFallbackCtx.audioManifest
            (generateAudioKey wFallbackCtx.scene.id wFallbackCtx.blockIndex) = none
          from rfl] at h
        exact Option.noConfusion h),
    by decide,
    dialogue_fallback_and_validation.2 wScript wOpts (by decide) rfl⟩

theorem compile_totalFrames_witness :
    validScript wScript = true ∧
    (compile wScript wOpts).meta.totalFrames =
      scriptTotalFrames wScript wOpts.audioManifest :=
  ⟨by decide, compile_totalFrames wScript wOpts (by decide)⟩

/-- Shape of the ducking object the compiler attaches to every BGM clip:
always present, always with a numeric `duckDeltaDb`, never with
`duckVolumeDb` or `duckVolume`. -/
def DuckShape (c : BgmClip) : Prop :=
  ∃ d v, c.ducking = some d ∧ d.duckDeltaDb = some v ∧
    d.duckVolumeDb = none ∧ d.duckVolume = none

theorem createBgmClip_duckShape (assetId : String) (start duration : ℤ)
    (config : ResolvedBgmConfig) (fps : ℤ) (f l : Bool) (tin tout aoff : Option ℤ) :
    DuckShape (createBgmClip assetId start duration config fps f l tin tout aoff) :=
  ⟨_, config.ducking.duckDeltaDb, rfl, rfl, rfl, rfl⟩

theorem bgmFinalizeSrcChanged_duckShape (fps : ℤ) (t : SceneTiming)
    (st : BgmGenState) (config configStr : ResolvedBgmConfig) (assetId : String)
    (bgmAssets : List (String × BgmAsset)) (sceneOverride : Option SceneBgmOverride)
    (isLastScene : Bool) (cur : BgmClip)
    (h1 : ∀ c ∈ st.bgmClips, DuckShape c) (hcur : DuckShape cur) :
    (∀ c ∈ (bgmFinalizeSrcChanged fps t st config configStr assetId bgmAssets
        sceneOverride isLastScene cur).bgmClips, DuckShape c) ∧
    (∀ c, (bgmFinalizeSrcChanged fps t st config configStr assetId bgmAssets
        sceneOverride isLastScene cur).currentClip = some c → DuckShape c) := by
  obtain ⟨d, v, hd, hv, hvd, hvv⟩ := hcur
  constructor
  · intro c hc
    rcases List.mem_append.mp hc with h | h
    · exact h1 c h
    · rcases List.mem_singleton.mp h with rfl
      exact ⟨d, v, hd, hv, hvd, hvv⟩
  · intro c hc
    obtain rfl := Option.some_inj.mp hc
    exact createBgmClip_duckShape _ _ _ _ _ _ _ _ _ _

theorem bgmFinalizeSameSrc_duckShape (fps : ℤ) (bgmDur : String → Option ℤ)
    (t : SceneTiming) (st : BgmGenState) (config configStr : ResolvedBgmConfig)
    (assetId : String) (bgmAssets : List (String × BgmAsset)) (isLastScene : Bool)
    (cur : BgmClip)
    (h1 : ∀ c ∈ st.bgmClips, DuckShape c) (hcur : DuckShape cur) :
    (∀ c ∈ (bgmFinalizeSameSrc fps bgmDur t st config configStr assetId bgmAssets
        isLastScene cur).bgmClips, DuckShape c) ∧
    (∀ c, (bgmFinalizeSameSrc fps bgmDur t st config configStr assetId bgmAssets
        isLastScene cur).currentClip = some c → DuckShape c) := by
  obtain ⟨d, v, hd, hv, hvd, hvv⟩ := hcur
  constructor
  · intro c hc
    rcases List.mem_append.mp hc with h | h
    · exact h1 c h
    · rcases List.mem_singleton.mp h with rfl
      exact ⟨d, v, hd, hv, hvd, hvv⟩
  · intro c hc
    obtain rfl := Option.some_inj.mp hc
    exact createBgmClip_duckShape _ _ _ _ _ _ _ _ _ _

theorem bgmExtend_duckShape (fps : ℤ) (t : SceneTiming) (st : BgmGenState)
    (bgmAssets : List (String × BgmAsset)) (isLastScene : Bool)
    (h1 : ∀ c ∈ st.bgmClips, DuckShape c)
    (h2 : ∀ c, st.currentClip = some c → DuckShape c) :
    (∀ c ∈ (bgmExtend fps t st bgmAssets isLastScene).bgmClips, DuckShape c) ∧
    (∀ c, (bgmExtend fps t st bgmAssets isLastScene).currentClip = some c →
      DuckShape c) := by
  unfold bgmExtend
  cases hcur : st.currentClip with
  | some cur =>
      obtain ⟨d, v, hd, hv, hvd, hvv⟩ := h2 cur hcur
      constructor
      · intro c hc; exact h1 c hc
      · intro c hc
        obtain rfl := Option.some_inj.mp hc
        by_cases hl : isLastScene = true
        · rw [if_pos hl]
          exact ⟨d, v, hd, hv, hvd, hvv⟩
        · rw [if_neg hl]
          exact ⟨d, v, hd, hv, hvd, hvv⟩
  | none =>
      constructor
      · intro c hc; exact h1 c hc
      · intro c hc
        exact absurd hc (by simp)

theorem bgmStep_duckShape (videoBgm : BgmConfig) (fps : ℤ)
    (bgmDur : String → Option ℤ) (n i : ℕ) (t : SceneTiming) (st : BgmGenState)
    (h1 : ∀ c ∈ st.bgmClips, DuckShape c)
    (h2 : ∀ c, st.currentClip = some c → DuckShape c) :
    (∀ c ∈ (bgmStep videoBgm fps bgmDur n i t st).bgmClips, DuckShape c) ∧
    (∀ c, (bgmStep videoBgm fps bgmDur n i t st).currentClip = some c → DuckShape c) := by
  unfold bgmStep
  dsimp only
  split
  · cases hcur : st.currentClip with
    | some cur =>
        dsimp only
        split
        · exact bgmFinalizeSrcChanged_duckShape _ _ _ _ _ _ _ _ _ _ h1 (h2 cur hcur)
        · exact bgmFinalizeSameSrc_duckShape _ _ _ _ _ _ _ _ _ _ h1 (h2 cur hcur)
    | none =>
        dsimp only
        constructor
        · intro c hc; exact h1 c hc
        · intro c hc
          obtain rfl := Option.some_inj.mp hc
          exact createBgmClip_duckShape _ _ _ _ _ _ _ _ _ _
  · exact bgmExtend_duckShape _ _ _ _ _ h1 h2

theorem bgmGenLoop_duckShape (videoBgm : BgmConfig) (fps : ℤ)
    (bgmDur : String → Option ℤ) (n : ℕ) :
    ∀ (timings : List SceneTiming) (i : ℕ) (st : BgmGenState),
      (∀ c ∈ st.bgmClips, DuckShape c) →
      (∀ c, st.currentClip = some c → DuckShape c) →
      (∀ c ∈ (bgmGenLoop videoBgm fps bgmDur n i timings st).bgmClips, DuckShape c) ∧
      (∀ c, (bgmGenLoop videoBgm fps bgmDur n i timings st).currentClip = some c →
        DuckShape c) := by
  intro timings
  induction timings with
  | nil => intro i st h1 h2; exact ⟨h1, h2⟩
  | cons t rest ih =>
      intro i st h1 h2
      rw [bgmGenLoop]
      obtain ⟨g1, g2⟩ := bgmStep_duckShape videoBgm fps bgmDur n i t st h1 h2
      exact ih (i + 1) _ g1 g2

theorem generateBgmTrack_duckShape (videoBgm : BgmConfig)
    (sceneTimings : List SceneTiming) (totalFrames : ℤ) (fps : ℤ)
    (bgmDur : String → Option ℤ) :
    ∀ c ∈ (generateBgmTrack videoBgm sceneTimings totalFrames fps bgmDur).2,
      DuckShape c := by
  unfold generateBgmTrack
  cases sceneTimings with
  | nil =>
      intro c hc
      rcases List.mem_singleton.mp hc with rfl
      exact createBgmClip_duckShape _ _ _ _ _ _ _ _ _ _
  | cons t rest =>
      obtain ⟨g1, g2⟩ := bgmGenLoop_duckShape videoBgm fps bgmDur
        (t :: rest).length (t :: rest) 0 initBgmGenState
        (by intro c hc; simp [initBgmGenState] at hc)
        (by intro c hc; simp [initBgmGenState] at hc)
      cases hcur : (bgmGenLoop videoBgm fps bgmDur (t :: rest).length 0 (t :: rest)
          initBgmGenState).currentClip with
      | some cur =>
          intro c hc
          simp only [hcur] at hc
          rcases List.mem_append.mp hc with h | h
          · exact g1 c h
          · rcases List.mem_singleton.mp h with rfl
            exact g2 c hcur
      | none =>
          intro c hc
          simp only [hcur] at hc
          exact g1 c hc

theorem getBgmTrack_compile (script : Script) (options : CompileOptions)
    (clips : List BgmClip) (hb : getBgmTrack (compile script options) = some clips) :
    ∃ videoBgm, script.video.bgm = some videoBgm ∧
      clips = (generateBgmTrack videoBgm
        (processScenes script options.audioManifest script.scenes
          initCompileState).sceneTimings
        (processScenes script options.audioManifest script.scenes
          initCompileState).currentFrame
        script.video.fps options.bgmDurationFrames).2 := by
  unfold compile at hb
  cases hbgm : script.video.bgm with
  | none =>
      rw [hbgm] at hb
      dsimp only at hb
      simp [getBgmTrack, List.findSome?] at hb
  | some vb =>
      refine ⟨vb, rfl, ?_⟩
      rw [hbgm] at hb
      dsimp only at hb
      by_cases hlen :
          (generateBgmTrack vb
            (processScenes script options.audioManifest script.scenes
              initCompileState).sceneTimings
            (processScenes script options.audioManifest script.scenes
              initCompileState).currentFrame
            script.video.fps options.bgmDurationFrames).2.length > 0
      · rw [if_pos hlen] at hb
        simp [getBgmTrack, List.findSome?] at hb
        exact hb.symm
      · rw [if_neg hlen] at hb
        simp [getBgmTrack, List.findSome?] at hb

/-- Claim C10: every BGM clip of a compiled Timeline carries a ducking object
with a numeric `duckDeltaDb` and without `duckVolumeDb` / `duckVolume` (the
resolved config's ducking carries only `duckDeltaDb`, and `resolveBgmConfig`
drops the script-level `duckVolumeDb` / `duckVolume`); consequently the
renderer's `getTalkGain` on such a clip always takes the priority-1
`duckDeltaDb` branch — the priority-2 and priority-3 branches are
unreachable on compiler output. -/
theorem compiled_bgm_ducking_only_delta (script : Script) (options : CompileOptions)
    (clips : List BgmClip) (hb : getBgmTrack (compile script options) = some clips) :
    ∀ c ∈ clips, ∃ d v, c.ducking = some d ∧ d.duckDeltaDb = some v ∧
      d.duckVolumeDb = none ∧ d.duckVolume = none ∧
      (∀ g : ℝ, getTalkGain c g =
        if d.enabled = true then
          g * dbToGain (clamp v DUCK_DELTA_DB_MIN DUCK_DELTA_DB_MAX)
        else g) := by
  obtain ⟨vb, hbgm, rfl⟩ := getBgmTrack_compile script options clips hb
  intro c hc
  obtain ⟨d, v, hd, hv, hvd, hvv⟩ := generateBgmTrack_duckShape vb _ _ _ _ c hc
  refine ⟨d, v, hd, hv, hvd, hvv, ?_⟩
  intro g
  unfold getTalkGain
  rw [hd]
  dsimp only
  rw [hv]
  cases he : d.enabled <;> simp [he]

def wBgmConfig : BgmConfig :=
  { src := "bgm/main.mp3", preset := none, volumeDb := none, volume := none,
    maxGainDb := mkRat (-3) 1, fadeInSec := mkRat 1 1, fadeOutSec := mkRat 1 1,
    loop := true, loopStartSec := none, loopEndSec := none,
    loopCrossfadeSec := mkRat 25 100, idleBoostDb := none, ducking := none }

def wBgmScript : Script :=
  { version := "0.1",
    video := { fps := 30, width := 1920, height := 1080,
               defaultPauseSec := mkRat 0 1, bgm := some wBgmConfig },
    cast := [], scenes := [wScene0] }

def wBgmClips : List BgmClip := (getBgmTrack (compile wBgmScript wOpts)).getD []

theorem compiled_bgm_ducking_witness :
    getBgmTrack (compile wBgmScript wOpts) = some wBgmClips ∧
    ∀ c ∈ wBgmClips, ∃ d v, c.ducking = some d ∧ d.duckDeltaDb = some v ∧
      d.duckVolumeDb = none ∧ d.duckVolume = none ∧
      (∀ g : ℝ, getTalkGain c g =
        if d.enabled = true then
          g * dbToGain (clamp v DUCK_DELTA_DB_MIN DUCK_DELTA_DB_MAX)
        else g) :=
  ⟨by decide, compiled_bgm_ducking_only_delta wBgmScript wOpts wBgmClips (by decide)⟩

/-! Idempotence of the interval stabilizer. -/

/-- Sorted-by-start relation used by the stabilizer's sort. -/
def IvLe (a b : Interval) : Prop := a.start ≤ b.start

/-- Gap condition separating adjacent stabilized intervals: the merge test
failed between them. -/
def GapChain (m : ℤ) (l : List Interval) : Prop :=
  List.Chain' (fun a b => ¬ (b.start ≤ a.stop + m)) l

/-- Lower/upper bounds every held interval satisfies:
`min M (start + h) ≤ stop ≤ M`. -/
def HeldB (h M : ℤ) (iv : Interval) : Prop :=
  min M (iv.start + h) ≤ iv.stop ∧ iv.stop ≤ M

/-- An interval the minimum-hold map leaves unchanged. -/
def HoldFixed (h M : ℤ) (iv : Interval) : Prop :=
  iv.stop = min M (max iv.stop (iv.start + h))

theorem heldB_holdFixed {h M : ℤ} {iv : Interval} (hb : HeldB h M iv) :
    HoldFixed h M iv := by
  obtain ⟨h1, h2⟩ := hb
  unfold HoldFixed
  rcases le_total (iv.start + h) iv.stop with hc | hc
  · rw [max_eq_left hc, min_eq_right h2]
  · rw [max_eq_right hc]
    have : min M (iv.start + h) = iv.stop := le_antisymm h1 (le_min h2 hc)
    omega

theorem holdF_heldB (h M : ℤ) (iv : Interval) :
    HeldB h M { start := iv.start, stop := min M (max iv.stop (iv.start + h)) } := by
  constructor
  · exact min_le_min (le_refl M) (le_max_right _ _)
  · exact min_le_left _ _

theorem mergeRun_head (m : ℤ) :
    ∀ (rest : List Interval) (cur : Interval),
      ∃ e tail, stabilizeMergeRun m cur rest = { start := cur.start, stop := e } :: tail := by
  intro rest
  induction rest with
  | nil => intro cur; exact ⟨cur.stop, [], rfl⟩
  | cons next rest ih =>
      intro cur
      unfold stabilizeMergeRun
      by_cases hle : next.start ≤ cur.stop + m
      · rw [if_pos hle]
        exact ih { start := cur.start, stop := max cur.stop next.stop }
      · rw [if_neg hle]
        exact ⟨cur.stop, stabilizeMergeRun m next rest, rfl⟩

theorem mergeRun_good (m h M : ℤ) :
    ∀ (rest : List Interval) (cur : Interval),
      List.Pairwise IvLe (cur :: rest) →
      (∀ x ∈ cur :: rest, HeldB h M x) →
      List.Pairwise IvLe (stabilizeMergeRun m cur rest) ∧
      GapChain m (stabilizeMergeRun m cur rest) ∧
      (∀ x ∈ stabilizeMergeRun m cur rest, HeldB h M x) ∧
      (∀ x ∈ stabilizeMergeRun m cur rest, cur.start ≤ x.start) := by
  intro rest
  induction rest with
  | nil =>
      intro cur _ hb
      have hrun : stabilizeMergeRun m cur [] = [cur] := rfl
      rw [hrun]
      refine ⟨List.pairwise_singleton _ _, List.chain'_singleton _, ?_, ?_⟩
      · intro x hx; rcases List.mem_singleton.mp hx with rfl
        exact hb _ (List.mem_cons_self _ _)
      · intro x hx; rcases List.mem_singleton.mp hx with rfl
        exact le_refl _
  | cons next rest ih =>
      intro cur hsort hb
      unfold stabilizeMergeRun
      by_cases hle : next.start ≤ cur.stop + m
      · rw [if_pos hle]
        have hsort' : List.Pairwise IvLe
            ({ start := cur.start, stop := max cur.stop next.stop } :: rest) := by
          rw [List.pairwise_cons] at hsort ⊢
          refine ⟨?_, (List.pairwise_cons.mp hsort.2).2⟩
          intro x hx
          exact hsort.1 x (List.mem_cons_of_mem _ hx)
        have hb' : ∀ x ∈ { start := cur.start, stop := max cur.stop next.stop } :: rest,
            HeldB h M x := by
          intro x hx
          rcases List.mem_cons.mp hx with rfl | hx2
          · have hcur := hb cur (List.mem_cons_self _ _)
            have hnext := hb next (List.mem_cons_of_mem _ (List.mem_cons_self _ _))
            exact ⟨le_trans hcur.1 (le_max_left _ _), max_le hcur.2 hnext.2⟩
          · exact hb x (List.mem_cons_of_mem _ (List.mem_cons_of_mem _ hx2))
        obtain ⟨g1, g2, g3, g4⟩ := ih _ hsort' hb'
        exact ⟨g1, g2, g3, g4⟩
      · rw [if_neg hle]
        have hsort2 : List.Pairwise IvLe (next :: rest) := (List.pairwise_cons.mp hsort).2
        have hb2 : ∀ x ∈ next :: rest, HeldB h M x := by
          intro x hx; exact hb x (List.mem_cons_of_mem _ hx)
        obtain ⟨g1, g2, g3, g4⟩ := ih next hsort2 hb2
        obtain ⟨e, tail, hdec⟩ := mergeRun_head m rest next
        have hcurnext : IvLe cur next := (List.pairwise_cons.mp hsort).1 next
          (List.mem_cons_self _ _)
        refine ⟨?_, ?_, ?_, ?_⟩
        · rw [List.pairwise_cons]
          refine ⟨?_, g1⟩
          intro x hx
          exact le_trans hcurnext (g4 x hx)
        · unfold GapChain
          rw [hdec]
          rw [List.chain'_cons]
          refine ⟨?_, ?_⟩
          · simpa using hle
          · have := g2
            unfold GapChain at this
            rw [hdec] at this
            exact this
        · intro x hx
          rcases List.mem_cons.mp hx with rfl | hx2
          · exact hb _ (List.mem_cons_self _ _)
          · exact g3 x hx2
        · intro x hx
          rcases List.mem_cons.mp hx with rfl | hx2
          · exact le_refl _
          · exact le_trans hcurnext (g4 x hx2)

theorem mergeRun_fixed (m : ℤ) :
    ∀ (rest : List Interval) (cur : Interval),
      GapChain m (cur :: rest) →
      stabilizeMergeRun m cur rest = cur :: rest := by
  intro rest
  induction rest with
  | nil => intro cur _; rfl
  | cons next rest ih =>
      intro cur hchain
      unfold GapChain at hchain
      rw [List.chain'_cons] at hchain
      unfold stabilizeMergeRun
      rw [if_neg hchain.1]
      rw [ih next hchain.2]

theorem ivle_total (a b : Interval) :
    (decide (a.start ≤ b.start) || decide (b.start ≤ a.start)) = true := by
  rcases le_total a.start b.start with hc | hc <;> simp [hc]

theorem ivle_trans (a b c : Interval) :
    decide (a.start ≤ b.start) = true → decide (b.start ≤ c.start) = true →
    decide (a.start ≤ c.start) = true := by
  simp only [decide_eq_true_eq]
  exact le_trans

theorem stabilize_output_good (l : List Interval) (m h M : ℤ) :
    List.Pairwise IvLe (stabilizeIntervals l m h M) ∧
    GapChain m (stabilizeIntervals l m h M) ∧
    (∀ x ∈ stabilizeIntervals l m h M, HeldB h M x) := by
  unfold stabilizeIntervals
  by_cases hemp : l.isEmpty
  · rw [if_pos hemp]
    exact ⟨List.Pairwise.nil, List.chain'_nil, by intro x hx; simp at hx⟩
  · rw [if_neg hemp]
    dsimp only
    have hsorted : List.Pairwise (fun a b => decide (a.start ≤ b.start) = true)
        (l.mergeSort (fun a b => decide (a.start ≤ b.start))) :=
      List.sorted_mergeSort ivle_trans ivle_total l
    have hsorted2 : List.Pairwise IvLe
        ((l.mergeSort (fun a b => decide (a.start ≤ b.start))).map
          (fun iv =>
            { start := iv.start,
              stop := min M (max iv.stop (iv.start + h)) : Interval })) := by
      refine List.Pairwise.map _ ?_ hsorted
      intro a b hab
      simpa [IvLe] using hab
    have hheld : ∀ x ∈ (l.mergeSort (fun a b => decide (a.start ≤ b.start))).map
        (fun iv =>
          { start := iv.start,
            stop := min M (max iv.stop (iv.start + h)) : Interval }), HeldB h M x := by
      intro x hx
      obtain ⟨iv, _, rfl⟩ := List.mem_map.mp hx
      exact holdF_heldB h M iv
    cases hms : (l.mergeSort (fun a b => decide (a.start ≤ b.start))).map
        (fun iv =>
          { start := iv.start,
            stop := min M (max iv.stop (iv.start + h)) : Interval }) with
    | nil => exact ⟨List.Pairwise.nil, List.chain'_nil, by intro x hx; simp at hx⟩
    | cons h0 rest =>
        rw [hms] at hsorted2 hheld
        exact ⟨(mergeRun_good m h M rest h0 hsorted2 hheld).1,
          (mergeRun_good m h M rest h0 hsorted2 hheld).2.1,
          (mergeRun_good m h M rest h0 hsorted2 hheld).2.2.1⟩

theorem stabilize_fixed (l : List Interval) (m h M : ℤ)
    (hsort : List.Pairwise IvLe l)
    (hfix : ∀ x ∈ l, HoldFixed h M x)
    (hchain : GapChain m l) :
    stabilizeIntervals l m h M = l := by
  cases l with
  | nil => rfl
  | cons x rest =>
      have hms : (x :: rest).mergeSort (fun a b => decide (a.start ≤ b.start)) =
          x :: rest := by
        apply List.mergeSort_of_sorted
        exact hsort.imp (by intro a b hab; simpa [IvLe] using hab)
      have hmap : (x :: rest).map (fun iv =>
          { start := iv.start,
            stop := min M (max iv.stop (iv.start + h)) : Interval }) = x :: rest := by
        have hid : ∀ iv ∈ x :: rest,
            ({ start := iv.start,
               stop := min M (max iv.stop (iv.start + h)) : Interval }) = id iv := by
          intro iv hiv
          have hf := hfix iv hiv
          unfold HoldFixed at hf
          cases iv with
          | mk s e =>
              simp only [id, Interval.mk.injEq]
              exact ⟨trivial, hf.symm⟩
        rw [List.map_congr_left hid, List.map_id]
      unfold stabilizeIntervals
      rw [if_neg (by simp)]
      dsimp only
      rw [hms, hmap]
      exact mergeRun_fixed m rest x hchain

/-- Claim C9: the interval stabilizer is idempotent — for every list of
intervals and parameters `mergeGapFrames ≥ 0`, `minHoldFrames ≥ 0` and any
`maxEndFrame`, applying `stabilizeIntervals` twice yields exactly the same
list as applying it once. -/
theorem stabilizeIntervals_idempotent (l : List Interval) (m h M : ℤ)
    (hm : 0 ≤ m) (hh : 0 ≤ h) :
    stabilizeIntervals (stabilizeIntervals l m h M) m h M =
      stabilizeIntervals l m h M := by
  obtain ⟨g1, g2, g3⟩ := stabilize_output_good l m h M
  exact stabilize_fixed _ m h M g1 (fun x hx => heldB_holdFixed (g3 x hx)) g2

/-- Concrete instance of C9: an unsorted, overlapping interval list with the
defaults `mergeGapFrames = 9`, `minHoldFrames = 18`, `maxEndFrame = 300`. -/
def wIvs : List Interval :=
  [{ start := 50, stop := 53 }, { start := 0, stop := 1 },
   { start := 55, stop := 56 }, { start := 2, stop := 40 },
   { start := 290, stop := 310 }]

theorem stabilizeIntervals_idempotent_witness :
    (0:ℤ) ≤ 9 ∧ (0:ℤ) ≤ 18 ∧
    stabilizeIntervals (stabilizeIntervals wIvs 9 18 300) 9 18 300 =
      stabilizeIntervals wIvs 9 18 300 :=
  ⟨by decide, by decide,
    stabilizeIntervals_idempotent wIvs 9 18 300 (by decide) (by decide)⟩

/-! Text-independence of the dialogue-to-manifest binding. -/

/-- Erases the `text` field of a manifest item; two manifests related by
equal `map eraseText` images differ only in their `text` fields. -/
def eraseText (item : AudioManifestItem) : AudioManifestItem :=
  { item with text := "" }

theorem find?_eq_head_filter {α : Type} (p : α → Bool) (l : List α) :
    l.find? p = (l.filter p).head? := by
  induction l with
  | nil => rfl
  | cons a l ih =>
      by_cases hpa : p a
      · rw [List.find?_cons_of_pos l hpa, List.filter_cons_of_pos hpa]
        rfl
      · rw [List.find?_cons_of_neg l hpa,
          List.filter_cons_of_neg (by simpa using hpa)]
        exact ih

theorem find?_key_perm (m1 m2 : List AudioManifestItem)
    (hperm : List.Perm m1 m2)
    (hnd : (m1.map (fun i => i.audioKey)).Nodup) (k : String) :
    m1.find? (fun i => i.audioKey == k) = m2.find? (fun i => i.audioKey == k) := by
  rw [find?_eq_head_filter, find?_eq_head_filter]
  have hpf := hperm.filter (fun i => i.audioKey == k)
  cases hf1 : m1.filter (fun i => i.audioKey == k) with
  | nil =>
      rw [hf1] at hpf
      rw [List.nil_perm.mp hpf]
  | cons a rest =>
      cases rest with
      | nil =>
          rw [hf1] at hpf
          rw [List.perm_singleton.mp hpf.symm]
      | cons b t =>
          exfalso
          have hsub : List.Sublist (m1.filter (fun i => i.audioKey == k)) m1 :=
            List.filter_sublist m1
          rw [hf1] at hsub
          have hnd2 : ((a :: b :: t).map (fun i => i.audioKey)).Nodup :=
            hnd.sublist (hsub.map (fun i => i.audioKey))
          have ha : a.audioKey = k := by
            have hmem : a ∈ m1.filter (fun i => i.audioKey == k) := by
              rw [hf1]; exact List.mem_cons_self _ _
            simpa using List.of_mem_filter hmem
          have hb : b.audioKey = k := by
            have hmem : b ∈ m1.filter (fun i => i.audioKey == k) := by
              rw [hf1]; exact List.mem_cons_of_mem _ (List.mem_cons_self _ _)
            simpa using List.of_mem_filter hmem
          rw [List.map_cons, List.map_cons, ha, hb, List.nodup_cons] at hnd2
          exact hnd2.1 (List.mem_cons_self _ _)

theorem findAudio_key_congr (block : DialogueBlock) (hfn : block.fileName = none)
    (m1 m2 : List AudioManifestItem) (key : String)
    (hperm : List.Perm m1 m2)
    (hnd : (m1.map (fun i => i.audioKey)).Nodup) :
    findAudioInManifest block m1 key = findAudioInManifest block m2 key := by
  unfold findAudioInManifest
  dsimp only
  rw [hfn]
  exact find?_key_perm m1 m2 hperm hnd _

theorem find?_eraseText_congr (p : AudioManifestItem → Bool)
    (hp : ∀ i, p (eraseText i) = p i)
    (m1 m2 : List AudioManifestItem)
    (hm : m1.map eraseText = m2.map eraseText) :
    (m1.find? p).map eraseText = (m2.find? p).map eraseText := by
  have h1 : ∀ m : List AudioManifestItem,
      (m.find? p).map eraseText = (m.map eraseText).find? p := by
    intro m
    rw [List.find?_map eraseText m]
    have hpe : p = p ∘ eraseText := by
      funext i
      simp only [Function.comp_apply]
      exact (hp i).symm
    rw [← hpe]
  rw [h1, h1, hm]

theorem findAudio_eraseText_congr (block : DialogueBlock)
    (m1 m2 : List AudioManifestItem) (key : String)
    (hm : m1.map eraseText = m2.map eraseText) :
    (findAudioInManifest block m1 key).map eraseText =
      (findAudioInManifest block m2 key).map eraseText := by
  have hkey := find?_eraseText_congr
    (fun item => item.audioKey == block.audioKey.getD key) (fun i => rfl) m1 m2 hm
  unfold findAudioInManifest
  dsimp only
  cases hfn : block.fileName with
  | none => exact hkey
  | some fn =>
      dsimp only
      have hfile := find?_eraseText_congr
        (fun item => strIncludes item.audioSrc fn || item.fileName == some fn)
        (fun i => rfl) m1 m2 hm
      cases h1 : m1.find?
          (fun item => strIncludes item.audioSrc fn || item.fileName == some fn) with
      | some a =>
          cases h2 : m2.find?
              (fun item => strIncludes item.audioSrc fn || item.fileName == some fn) with
          | some b =>
              rw [h1, h2] at hfile
              dsimp only
              exact hfile
          | none =>
              rw [h1, h2] at hfile
              simp at hfile
      | none =>
          cases h2 : m2.find?
              (fun item => strIncludes item.audioSrc fn || item.fileName == some fn) with
          | some b =>
              rw [h1, h2] at hfile
              simp at hfile
          | none =>
              dsimp only
              exact hkey

theorem processDialogueBlock_manifest_congr (block : DialogueBlock)
    (ctx : DialogueContext) (m2 : List AudioManifestItem)
    (hf : (findAudioInManifest block ctx.audioManifest
            (generateAudioKey ctx.scene.id ctx.blockIndex)).map eraseText =
          (findAudioInManifest block m2
            (generateAudioKey ctx.scene.id ctx.blockIndex)).map eraseText) :
    processDialogueBlock block ctx =
      processDialogueBlock block { ctx with audioManifest := m2 } := by
  cases o1 : findAudioInManifest block ctx.audioManifest
      (generateAudioKey ctx.scene.id ctx.blockIndex) with
  | none =>
      cases o2 : findAudioInManifest block m2
          (generateAudioKey ctx.scene.id ctx.blockIndex) with
      | none =>
          unfold processDialogueBlock
          dsimp only
          rw [o1, o2]
      | some b =>
          rw [o1, o2] at hf
          simp at hf
  | some a =>
      cases o2 : findAudioInManifest block m2
          (generateAudioKey ctx.scene.id ctx.blockIndex) with
      | none =>
          rw [o1, o2] at hf
          simp at hf
      | some b =>
          rw [o1, o2] at hf
          have hab : eraseText a = eraseText b := by simpa using hf
          unfold processDialogueBlock
          dsimp only
          rw [o1, o2]
          cases a with
          | mk ak asp atx asrc adur afn =>
              cases b with
              | mk bk bsp btx bsrc bdur bfn =>
                  simp [eraseText, AudioManifestItem.mk.injEq] at hab
                  obtain ⟨hk, hsp, hsrc, hdur, hfn2⟩ := hab
                  subst hk; subst hsp; subst hsrc; subst hdur; subst hfn2
                  dsimp only
                  by_cases hd : adur > 0
                  · simp only [if_pos hd]
                  · simp only [if_neg hd]

theorem processBlocksInScene_manifest_congr (script : Script) (scene : Scene)
    (m1 m2 : List AudioManifestItem) :
    ∀ (blocks : List Block) (bi : ℕ) (st : CompileState),
      (∀ b ∈ blocks, ∀ key,
        (findAudioInManifest (blockOf b) m1 key).map eraseText =
          (findAudioInManifest (blockOf b) m2 key).map eraseText) →
      processBlocksInScene script scene m1 blocks bi st =
        processBlocksInScene script scene m2 blocks bi st := by
  intro blocks
  induction blocks with
  | nil => intro bi st _; rfl
  | cons b rest ih =>
      intro bi st H
      cases b with
      | dialogue db =>
          have hres := processDialogueBlock_manifest_congr db
            { script := script, scene := scene, audioManifest := m1,
              currentFrame := st.currentFrame, blockIndex := bi,
              globalBlockIndex := st.globalBlockIndex } m2
            (H (Block.dialogue db) (List.mem_cons_self _ _) _)
          unfold processBlocksInScene
          dsimp only [processBlock]
          rw [hres]
          exact ih (bi + 1) _ (fun b hb key => H b (List.mem_cons_of_mem _ hb) key)

theorem processScenes_manifest_congr (script : Script)
    (m1 m2 : List AudioManifestItem) :
    ∀ (scenes : List Scene) (st : CompileState),
      (∀ scene ∈ scenes, ∀ b ∈ scene.blocks, ∀ key,
        (findAudioInManifest (blockOf b) m1 key).map eraseText =
          (findAudioInManifest (blockOf b) m2 key).map eraseText) →
      processScenes script m1 scenes st = processScenes script m2 scenes st := by
  intro scenes
  induction scenes with
  | nil => intro st _; rfl
  | cons scene rest ih =>
      intro st H
      unfold processScenes
      dsimp only
      rw [processBlocksInScene_manifest_congr script scene m1 m2 scene.blocks 0 st
        (fun b hb key => H scene (List.mem_cons_self _ _) b hb key)]
      exact ih _ (fun sc hsc b hb key => H sc (List.mem_cons_of_mem _ hsc) b hb key)

theorem compile_manifest_congr (script : Script) (bd : String → Option ℤ)
    (m1 m2 : List AudioManifestItem)
    (H : ∀ scene ∈ script.scenes, ∀ b ∈ scene.blocks, ∀ key,
        (findAudioInManifest (blockOf b) m1 key).map eraseText =
          (findAudioInManifest (blockOf b) m2 key).map eraseText) :
    compile script { audioManifest := m1, bgmDurationFrames := bd } =
      compile script { audioManifest := m2, bgmDurationFrames := bd } := by
  unfold compile
  dsimp only
  rw [processScenes_manifest_congr script m1 m2 script.scenes initCompileState H]

/-- Claim C8: dialogue-to-manifest binding is text-independent.  If the two
manifests are permutations of each other with pairwise-distinct `audioKey`
values and no script block binds by `fileName`, or more generally if the two
manifests agree after erasing every entry's `text` field, then `compile`
produces identical Timelines: binding matches only on
`fileName`/`audioSrc` and then `audioKey`, never on `text`. -/
theorem binding_text_independent (script : Script) (bd : String → Option ℤ)
    (m1 m2 : List AudioManifestItem)
    (hcase :
      (List.Perm m1 m2 ∧ (m1.map (fun i => i.audioKey)).Nodup ∧
        ∀ scene ∈ script.scenes, ∀ b ∈ scene.blocks, (blockOf b).fileName = none) ∨
      m1.map eraseText = m2.map eraseText) :
    compile script { audioManifest := m1, bgmDurationFrames := bd } =
      compile script { audioManifest := m2, bgmDurationFrames := bd } := by
  apply compile_manifest_congr
  intro scene hsc b hb key
  rcases hcase with ⟨hperm, hnd, hfn⟩ | hm
  · rw [findAudio_key_congr (blockOf b) (hfn scene hsc b hb) m1 m2 key hperm hnd]
  · exact findAudio_eraseText_congr (blockOf b) m1 m2 key hm

/-- Two-entry manifest with distinct keys, and its transposition, for the C8
witness. -/
def wM1 : List AudioManifestItem :=
  [{ audioKey := "s0:0", speakerId := 1, text := "hello",
     audioSrc := "audio/001.wav", durationInSeconds := mkRat 2 1, fileName := none },
   { audioKey := "s0:1", speakerId := 2, text := "bye",
     audioSrc := "audio/002.wav", durationInSeconds := mkRat 3 1, fileName := none }]

def wM2 : List AudioManifestItem :=
  [{ audioKey := "s0:1", speakerId := 2, text := "bye",
     audioSrc := "audio/002.wav", durationInSeconds := mkRat 3 1, fileName := none },
   { audioKey := "s0:0", speakerId := 1, text := "hello",
     audioSrc := "audio/001.wav", durationInSeconds := mkRat 2 1, fileName := none }]

theorem binding_text_independent_witness :
    (List.Perm wM1 wM2 ∧ (wM1.map (fun i => i.audioKey)).Nodup ∧
      ∀ scene ∈ wScript.scenes, ∀ b ∈ scene.blocks, (blockOf b).fileName = none) ∧
    compile wScript { audioManifest := wM1, bgmDurationFrames := fun _ => none } =
      compile wScript { audioManifest := wM2, bgmDurationFrames := fun _ => none } :=
  ⟨⟨by decide, by decide, by decide⟩,
    binding_text_independent wScript (fun _ => none) wM1 wM2
      (Or.inl ⟨by decide, by decide, by decide⟩)⟩

/-! Continuity and crossfade structure of the planned BGM track
(claims C1 and C2). -/

/-- Effective audio offset of a clip: the omitted field reads as 0. -/
def offsetVal (c : BgmClip) : ℤ := c.audioOffsetFrames.getD 0

/-- Accumulated playback duration of one asset over a clip list. -/
def sumDurFor (a : String) (l : List BgmClip) : ℤ :=
  (l.map (fun c => if c.assetId = a then c.duration else 0)).sum

/-- The planner's clip list including the still-open clip. -/
def FullList (st : BgmGenState) : List BgmClip :=
  st.bgmClips ++ (match st.currentClip with | some c => [c] | none => [])

/-- Chained scene timings: each scene starts at the running frame cursor and
ends no earlier than it starts. -/
def TimChain : ℤ → List SceneTiming → Prop
  | _, [] => True
  | f, t :: rest => t.startFrame = f ∧ t.startFrame ≤ t.endFrame ∧ TimChain t.endFrame rest

/-- Transition window of a scene: its override's `transitionSec` (default
`DEFAULT_TRANSITION_SEC` = 1 s) in frames, at least 1. -/
def sceneTransitionFrames (fps : ℤ) (t : SceneTiming) : ℤ :=
  max 1 (secToFrames
    (((t.scene.style.bind (·.bgm)).bind (·.transitionSec)).getD DEFAULT_TRANSITION_SEC) fps)

/-- The C1/C2 relation between two consecutive planned clips, `prior` being
all clips before the second one: same asset → the second clip's offset is the
wrapped accumulated playback position of that asset; different assets → the
crossfade transition anchored at some scene's start. -/
def PairProp (bgmDur : String → Option ℤ) (fps : ℤ) (allT : List SceneTiming)
    (prior : List BgmClip) (c1 c2 : BgmClip) : Prop :=
  (c1.assetId = c2.assetId →
    offsetVal c2 = wrapPlaybackPosition (sumDurFor c2.assetId prior)
      (bgmDur c2.assetId) c2.loopStartFrames c2.loopEndFrames c2.loop) ∧
  (c1.assetId ≠ c2.assetId →
    ∃ t ∈ allT,
      c2.start = t.startFrame ∧
      c1.duration = t.startFrame + sceneTransitionFrames fps t - c1.start ∧
      c1.transitionOutFrames = some (sceneTransitionFrames fps t) ∧
      c2.transitionInFrames = some (sceneTransitionFrames fps t) ∧
      offsetVal c2 = 0)

/-- Every consecutive pair of a clip list satisfies `PairProp`. -/
def BgmPairs (bgmDur : String → Option ℤ) (fps : ℤ) (allT : List SceneTiming)
    (l : List BgmClip) : Prop :=
  ∀ pre c1 c2 post, l = pre ++ c1 :: c2 :: post →
    PairProp bgmDur fps allT (pre ++ [c1]) c1 c2

/-- Invariant of the planner's scene loop. -/
def BgmInv (bgmDur : String → Option ℤ) (fps : ℤ) (allT : List SceneTiming)
    (st : BgmGenState) : Prop :=
  (∀ a, st.playbackPos a = sumDurFor a st.bgmClips) ∧
  (∀ c, st.currentClip = some c →
    c.assetId = st.currentAssetId ∧ st.currentAssetId ≠ "") ∧
  (st.currentClip = none → st.bgmClips = []) ∧
  (∀ c ∈ st.bgmClips, 0 ≤ c.duration) ∧
  BgmPairs bgmDur fps allT (FullList st)

theorem wrapPlaybackPosition_nonneg (p : ℤ) (d : Option ℤ) (ls le : Option ℤ)
    (lp : Bool) (hp : 0 ≤ p) : 0 ≤ wrapPlaybackPosition p d ls le lp := by
  unfold wrapPlaybackPosition
  cases d with
  | none => exact hp
  | some dv =>
      dsimp only
      by_cases hd : dv ≤ 0
      · rw [if_pos hd]; exact hp
      · rw [if_neg hd]
        by_cases hl : lp = false
        · rw [if_pos hl]
          exact le_min hp (by omega)
        · rw [if_neg hl]
          by_cases hinv : le.getD dv - ls.getD 0 ≤ 0 ∨ ls.getD 0 < 0 ∨ le.getD dv > dv
          · rw [if_pos hinv]
            exact Int.tmod_nonneg _ hp
          · rw [if_neg hinv]
            push_neg at hinv
            by_cases hintro : p < ls.getD 0
            · rw [if_pos hintro]; exact hp
            · rw [if_neg hintro]
              push_neg at hintro
              have h1 : 0 ≤ ls.getD 0 := hinv.2.1
              have h2 : 0 ≤ Int.tmod (p - ls.getD 0) (le.getD dv - ls.getD 0) :=
                Int.tmod_nonneg _ (by omega)
              omega

theorem createBgmClip_offsetVal (a : String) (s du : ℤ) (config : ResolvedBgmConfig)
    (fps : ℤ) (fc lc : Bool) (tin tout : Option ℤ) (v : ℤ) (hv : 0 ≤ v) :
    offsetVal (createBgmClip a s du config fps fc lc tin tout (some v)) = v := by
  unfold offsetVal createBgmClip
  dsimp only
  by_cases h : v > 0
  · rw [if_pos h]
    rfl
  · rw [if_neg h]
    show (0:ℤ) = v
    omega

theorem generateBgmAssetId_ne (src : String) : generateBgmAssetId src ≠ "" := by
  unfold generateBgmAssetId
  intro h
  have h2 := congrArg String.length h
  rw [String.length_append] at h2
  rw [show ("bgm_" : String).length = 4 from rfl] at h2
  rw [show ("" : String).length = 0 from rfl] at h2
  omega

theorem sumDurFor_append (a : String) (l1 l2 : List BgmClip) :
    sumDurFor a (l1 ++ l2) = sumDurFor a l1 + sumDurFor a l2 := by
  unfold sumDurFor
  rw [List.map_append, List.sum_append]

theorem sumDurFor_singleton (a : String) (c : BgmClip) :
    sumDurFor a [c] = if c.assetId = a then c.duration else 0 := by
  unfold sumDurFor
  simp

theorem sumDurFor_nonneg (a : String) (l : List BgmClip)
    (h : ∀ c ∈ l, 0 ≤ c.duration) : 0 ≤ sumDurFor a l := by
  unfold sumDurFor
  apply List.sum_nonneg
  intro x hx
  obtain ⟨c, hc, rfl⟩ := List.mem_map.mp hx
  by_cases hca : c.assetId = a
  · rw [if_pos hca]; exact h c hc
  · rw [if_neg hca]

theorem pairProp_congr_snd (bgmDur : String → Option ℤ) (fps : ℤ)
    (allT : List SceneTiming) (prior : List BgmClip) (c1 : BgmClip)
    (c c' : BgmClip)
    (hv : c.assetId = c'.assetId ∧ c.start = c'.start ∧
      c.audioOffsetFrames = c'.audioOffsetFrames ∧
      c.transitionInFrames = c'.transitionInFrames ∧
      c.loopStartFrames = c'.loopStartFrames ∧ c.loopEndFrames = c'.loopEndFrames ∧
      c.loop = c'.loop)
    (h : PairProp bgmDur fps allT prior c1 c) :
    PairProp bgmDur fps allT prior c1 c' := by
  obtain ⟨h1, h2, h3, h4, h5, h6, h7⟩ := hv
  unfold PairProp offsetVal at h ⊢
  rw [← h1, ← h2, ← h3, ← h4, ← h5, ← h6, ← h7]
  exact h

theorem bgmPairs_nil (bgmDur : String → Option ℤ) (fps : ℤ)
    (allT : List SceneTiming) : BgmPairs bgmDur fps allT [] := by
  intro pre c1 c2 post h
  have hl := congrArg List.length h
  simp at hl
  omega

theorem bgmPairs_singleton (bgmDur : String → Option ℤ) (fps : ℤ)
    (allT : List SceneTiming) (c : BgmClip) : BgmPairs bgmDur fps allT [c] := by
  intro pre c1 c2 post h
  have hl := congrArg List.length h
  simp at hl
  omega

theorem bgmPairs_mutate_last (bgmDur : String → Option ℤ) (fps : ℤ)
    (allT : List SceneTiming) (l0 : List BgmClip) (c c' : BgmClip)
    (hv : c.assetId = c'.assetId ∧ c.start = c'.start ∧
      c.audioOffsetFrames = c'.audioOffsetFrames ∧
      c.transitionInFrames = c'.transitionInFrames ∧
      c.loopStartFrames = c'.loopStartFrames ∧ c.loopEndFrames = c'.loopEndFrames ∧
      c.loop = c'.loop)
    (hp : BgmPairs bgmDur fps allT (l0 ++ [c])) :
    BgmPairs bgmDur fps allT (l0 ++ [c']) := by
  intro pre c1 c2 post hdec
  rcases List.append_eq_append_iff.mp hdec with ⟨a2, hpre, hb⟩ | ⟨c2l, hl0, hd⟩
  · have hl := congrArg List.length hb
    simp at hl
    omega
  · cases c2l with
    | nil =>
        simp at hd
    | cons x cs =>
        cases cs with
        | nil =>
            simp at hd
            obtain ⟨hx, hc2, hpost⟩ := hd
            subst hx
            subst hc2
            subst hpost
            have hold := hp pre c1 c []
              (by rw [hl0]; simp)
            exact pairProp_congr_snd bgmDur fps allT (pre ++ [c1]) c1 c c2 hv hold
        | cons y cs2 =>
            have hd2 : c1 :: c2 :: post = x :: y :: (cs2 ++ [c']) := by
              simpa using hd
            injection hd2 with hx hd3
            injection hd3 with hy hpost
            subst hx
            subst hy
            have hold := hp pre c1 c2 (cs2 ++ [c])
              (by rw [hl0]; simp)
            exact hold

theorem bgmPairs_push (bgmDur : String → Option ℤ) (fps : ℤ)
    (allT : List SceneTiming) (l0 : List BgmClip) (cLast cNew : BgmClip)
    (hp : BgmPairs bgmDur fps allT (l0 ++ [cLast]))
    (hnew : PairProp bgmDur fps allT (l0 ++ [cLast]) cLast cNew) :
    BgmPairs bgmDur fps allT ((l0 ++ [cLast]) ++ [cNew]) := by
  intro pre c1 c2 post hdec
  rcases List.append_eq_append_iff.mp hdec with ⟨a2, hpre, hb⟩ | ⟨c2l, hl0, hd⟩
  · have hl := congrArg List.length hb
    simp at hl
    omega
  · cases c2l with
    | nil =>
        simp at hd
    | cons x cs =>
        cases cs with
        | nil =>
            simp at hd
            obtain ⟨hx, hc2, hpost⟩ := hd
            subst hx
            subst hc2
            subst hpost
            obtain ⟨hpre2, hc1⟩ : pre = l0 ∧ c1 = cLast := by
              have := List.append_inj' hl0.symm (by simp)
              exact ⟨this.1, by simpa using this.2⟩
            subst hc1
            rw [hpre2]
            exact hnew
        | cons y cs2 =>
            have hd2 : c1 :: c2 :: post = x :: y :: (cs2 ++ [cNew]) := by
              simpa using hd
            injection hd2 with hx hd3
            injection hd3 with hy hpost
            subst hx
            subst hy
            exact hp pre c1 c2 cs2 hl0

theorem bgmFirstClip_inv (bgmDur : String → Option ℤ) (fps : ℤ)
    (allT : List SceneTiming) (t : SceneTiming) (st : BgmGenState)
    (config configStr : ResolvedBgmConfig) (assetId : String)
    (bgmAssets : List (String × BgmAsset)) (isLastScene : Bool)
    (hin : BgmInv bgmDur fps allT st)
    (hcur : st.currentClip = none)
    (hid : assetId ≠ "")
    (hse : t.startFrame ≤ t.endFrame) :
    BgmInv bgmDur fps allT
      (bgmFirstClip fps t st config configStr assetId bgmAssets isLastScene) ∧
    (∀ c, (bgmFirstClip fps t st config configStr assetId bgmAssets
        isLastScene).currentClip = some c → c.start ≤ t.endFrame) := by
  obtain ⟨hpos, hca, hnone, hdur, hpairs⟩ := hin
  have hemp : st.bgmClips = [] := hnone hcur
  refine ⟨⟨?_, ?_, ?_, ?_, ?_⟩, ?_⟩
  · intro a; exact hpos a
  · intro c hc
    obtain rfl := Option.some_inj.mp hc
    exact ⟨rfl, hid⟩
  · intro hc
    exact Option.noConfusion hc
  · intro c hc; exact hdur c hc
  · show BgmPairs bgmDur fps allT
      (st.bgmClips ++ [createBgmClip assetId t.startFrame (t.endFrame - t.startFrame)
        config fps true isLastScene none none (some 0)])
    rw [hemp]
    exact bgmPairs_singleton bgmDur fps allT _
  · intro c hc
    obtain rfl := Option.some_inj.mp hc
    exact hse

theorem bgmExtend_inv (bgmDur : String → Option ℤ) (fps : ℤ)
    (allT : List SceneTiming) (t : SceneTiming) (st : BgmGenState)
    (bgmAssets : List (String × BgmAsset)) (isLastScene : Bool)
    (hin : BgmInv bgmDur fps allT st)
    (hle : ∀ c, st.currentClip = some c → c.start ≤ t.startFrame)
    (hse : t.startFrame ≤ t.endFrame) :
    BgmInv bgmDur fps allT (bgmExtend fps t st bgmAssets isLastScene) ∧
    (∀ c, (bgmExtend fps t st bgmAssets isLastScene).currentClip = some c →
      c.start ≤ t.endFrame) := by
  obtain ⟨hpos, hca, hnone, hdur, hpairs⟩ := hin
  unfold bgmExtend
  cases hcur : st.currentClip with
  | none =>
      refine ⟨⟨hpos, ?_, ?_, hdur, ?_⟩, ?_⟩
      · intro c hc
        dsimp only at hc
        exact Option.noConfusion hc
      · intro _; exact hnone hcur
      · show BgmPairs bgmDur fps allT (st.bgmClips ++ [])
        have hfl : FullList st = st.bgmClips ++ [] := by
          unfold FullList
          rw [hcur]
        rw [← hfl]
        exact hpairs
      · intro c hc
        dsimp only at hc
        exact Option.noConfusion hc
  | some cur =>
      dsimp only
      obtain ⟨hca1, hca2⟩ := hca cur hcur
      have hfl : FullList st = st.bgmClips ++ [cur] := by
        unfold FullList
        rw [hcur]
      by_cases hl : isLastScene = true
      · rw [if_pos hl]
        refine ⟨⟨hpos, ?_, ?_, hdur, ?_⟩, ?_⟩
        · intro c hc
          obtain rfl := Option.some_inj.mp hc
          exact ⟨hca1, hca2⟩
        · intro hc
          exact Option.noConfusion hc
        · refine bgmPairs_mutate_last bgmDur fps allT st.bgmClips cur _ ?_ ?_
          · exact ⟨rfl, rfl, rfl, rfl, rfl, rfl, rfl⟩
          · rw [← hfl]
            exact hpairs
        · intro c hc
          obtain rfl := Option.some_inj.mp hc
          exact le_trans (hle cur hcur) hse
      · rw [if_neg hl]
        refine ⟨⟨hpos, ?_, ?_, hdur, ?_⟩, ?_⟩
        · intro c hc
          obtain rfl := Option.some_inj.mp hc
          exact ⟨hca1, hca2⟩
        · intro hc
          exact Option.noConfusion hc
        · refine bgmPairs_mutate_last bgmDur fps allT st.bgmClips cur _ ?_ ?_
          · exact ⟨rfl, rfl, rfl, rfl, rfl, rfl, rfl⟩
          · rw [← hfl]
            exact hpairs
        · intro c hc
          obtain rfl := Option.some_inj.mp hc
          exact le_trans (hle cur hcur) hse

theorem posEq_advance (pos : String → ℤ) (clips : List BgmClip) (cur2 : BgmClip)
    (aid : String) (d : ℤ) (hpos : ∀ a, pos a = sumDurFor a clips)
    (haid : cur2.assetId = aid) (hd : cur2.duration = d) :
    ∀ a, advancePlaybackPosition pos aid d a = sumDurFor a (clips ++ [cur2]) := by
  intro a
  unfold advancePlaybackPosition
  rw [sumDurFor_append, sumDurFor_singleton, hpos a, haid, hd]
  by_cases ha : a = aid
  · rw [if_pos ha, if_pos ha.symm]
  · rw [if_neg ha, if_neg (fun h => ha h.symm)]
    omega

theorem bgmFinalizeSameSrc_inv (bgmDur : String → Option ℤ) (fps : ℤ)
    (allT : List SceneTiming) (t : SceneTiming) (st : BgmGenState)
    (config configStr : ResolvedBgmConfig) (assetId : String)
    (bgmAssets : List (String × BgmAsset)) (isLastScene : Bool) (cur : BgmClip)
    (hin : BgmInv bgmDur fps allT st)
    (hcur : st.currentClip = some cur)
    (hid : assetId = st.currentAssetId)
    (hle : cur.start ≤ t.startFrame)
    (hse : t.startFrame ≤ t.endFrame) :
    BgmInv bgmDur fps allT
      (bgmFinalizeSameSrc fps bgmDur t st config configStr assetId bgmAssets
        isLastScene cur) ∧
    (∀ c, (bgmFinalizeSameSrc fps bgmDur t st config configStr assetId bgmAssets
        isLastScene cur).currentClip = some c → c.start ≤ t.endFrame) := by
  obtain ⟨hpos, hca, hnone, hdur, hpairs⟩ := hin
  obtain ⟨hca1, hca2⟩ := hca cur hcur
  have hfl : FullList st = st.bgmClips ++ [cur] := by
    unfold FullList; rw [hcur]
  have hposeq := posEq_advance st.playbackPos st.bgmClips
    { cur with duration := t.startFrame - cur.start } st.currentAssetId
    (t.startFrame - cur.start) hpos hca1 rfl
  have hdur2 : ∀ c ∈ st.bgmClips ++ [{ cur with duration := t.startFrame - cur.start }],
      0 ≤ c.duration := by
    intro c hc
    rcases List.mem_append.mp hc with h | h
    · exact hdur c h
    · rcases List.mem_singleton.mp h with rfl
      show 0 ≤ t.startFrame - cur.start
      omega
  have hoff : 0 ≤ getPlaybackPosition bgmDur fps
      (advancePlaybackPosition st.playbackPos st.currentAssetId
        (t.startFrame - cur.start)) assetId config := by
    unfold getPlaybackPosition
    apply wrapPlaybackPosition_nonneg
    rw [hposeq assetId]
    exact sumDurFor_nonneg assetId _ hdur2
  refine ⟨⟨?_, ?_, ?_, ?_, ?_⟩, ?_⟩
  · intro a
    exact hposeq a
  · intro c hc
    obtain rfl := Option.some_inj.mp hc
    exact ⟨rfl, fun h => hca2 (hid.symm.trans h)⟩
  · intro hc
    exact Option.noConfusion hc
  · exact hdur2
  · show BgmPairs bgmDur fps allT
      ((st.bgmClips ++ [{ cur with duration := t.startFrame - cur.start }]) ++
        [createBgmClip assetId t.startFrame (t.endFrame - t.startFrame) config fps
          false isLastScene none none
          (some (getPlaybackPosition bgmDur fps
            (advancePlaybackPosition st.playbackPos st.currentAssetId
              (t.startFrame - cur.start)) assetId config))])
    refine bgmPairs_push bgmDur fps allT st.bgmClips _ _ ?_ ?_
    · refine bgmPairs_mutate_last bgmDur fps allT st.bgmClips cur _ ?_ ?_
      · exact ⟨rfl, rfl, rfl, rfl, rfl, rfl, rfl⟩
      · rw [← hfl]
        exact hpairs
    · constructor
      · intro _
        show offsetVal (createBgmClip assetId t.startFrame (t.endFrame - t.startFrame)
            config fps false isLastScene none none
            (some (getPlaybackPosition bgmDur fps
              (advancePlaybackPosition st.playbackPos st.currentAssetId
                (t.startFrame - cur.start)) assetId config))) =
          wrapPlaybackPosition
            (sumDurFor assetId
              (st.bgmClips ++ [{ cur with duration := t.startFrame - cur.start }]))
            (bgmDur assetId)
            (config.loopStartSec.map (secToFrames · fps))
            (config.loopEndSec.map (secToFrames · fps)) config.loop
        rw [createBgmClip_offsetVal _ _ _ _ _ _ _ _ _ _ hoff]
        unfold getPlaybackPosition
        rw [hposeq assetId]
      · intro hne
        exact absurd (show cur.assetId = assetId from hca1.trans hid.symm) hne
  · intro c hc
    obtain rfl := Option.some_inj.mp hc
    exact hse

theorem bgmFinalizeSrcChanged_inv (bgmDur : String → Option ℤ) (fps : ℤ)
    (allT : List SceneTiming) (t : SceneTiming) (st : BgmGenState)
    (config configStr : ResolvedBgmConfig) (assetId : String)
    (bgmAssets : List (String × BgmAsset)) (isLastScene : Bool) (cur : BgmClip)
    (hin : BgmInv bgmDur fps allT st)
    (hcur : st.currentClip = some cur)
    (hne : assetId ≠ st.currentAssetId)
    (hida : assetId ≠ "")
    (hle : cur.start ≤ t.startFrame)
    (hse : t.startFrame ≤ t.endFrame)
    (hmem : t ∈ allT) :
    BgmInv bgmDur fps allT
      (bgmFinalizeSrcChanged fps t st config configStr assetId bgmAssets
        (t.scene.style.bind (·.bgm)) isLastScene cur) ∧
    (∀ c, (bgmFinalizeSrcChanged fps t st config configStr assetId bgmAssets
        (t.scene.style.bind (·.bgm)) isLastScene cur).currentClip = some c →
      c.start ≤ t.endFrame) := by
  obtain ⟨hpos, hca, hnone, hdur, hpairs⟩ := hin
  obtain ⟨hca1, hca2⟩ := hca cur hcur
  have hfl : FullList st = st.bgmClips ++ [cur] := by
    unfold FullList; rw [hcur]
  have htf : 1 ≤ sceneTransitionFrames fps t := le_max_left 1 _
  have hposeq := posEq_advance st.playbackPos st.bgmClips
    { cur with
      duration := t.startFrame + sceneTransitionFrames fps t - cur.start
      transitionOutFrames := some (sceneTransitionFrames fps t) } st.currentAssetId
    (t.startFrame + sceneTransitionFrames fps t - cur.start) hpos hca1 rfl
  refine ⟨⟨?_, ?_, ?_, ?_, ?_⟩, ?_⟩
  · intro a
    exact hposeq a
  · intro c hc
    obtain rfl := Option.some_inj.mp hc
    exact ⟨rfl, hida⟩
  · intro hc
    exact Option.noConfusion hc
  · intro c hc
    rcases List.mem_append.mp hc with h | h
    · exact hdur c h
    · rcases List.mem_singleton.mp h with rfl
      show 0 ≤ t.startFrame + sceneTransitionFrames fps t - cur.start
      omega
  · show BgmPairs bgmDur fps allT
      ((st.bgmClips ++
        [{ cur with
            duration := t.startFrame + sceneTransitionFrames fps t - cur.start
            transitionOutFrames := some (sceneTransitionFrames fps t) }]) ++
        [createBgmClip assetId t.startFrame (t.endFrame - t.startFrame) config fps
          false isLastScene (some (sceneTransitionFrames fps t)) none (some 0)])
    refine bgmPairs_push bgmDur fps allT st.bgmClips _ _ ?_ ?_
    · refine bgmPairs_mutate_last bgmDur fps allT st.bgmClips cur _ ?_ ?_
      · exact ⟨rfl, rfl, rfl, rfl, rfl, rfl, rfl⟩
      · rw [← hfl]
        exact hpairs
    · constructor
      · intro heq
        exact absurd (heq.symm.trans hca1) hne
      · intro _
        refine ⟨t, hmem, ?_, ?_, ?_, ?_, ?_⟩
        · exact rfl
        · exact rfl
        · exact rfl
        · exact rfl
        · exact createBgmClip_offsetVal _ _ _ _ _ _ _ _ _ 0 (le_refl 0)
  · intro c hc
    obtain rfl := Option.some_inj.mp hc
    exact hse

theorem bgmStep_inv (videoBgm : BgmConfig) (fps : ℤ) (bgmDur : String → Option ℤ)
    (n i : ℕ) (allT : List SceneTiming) (t : SceneTiming) (st : BgmGenState)
    (hin : BgmInv bgmDur fps allT st)
    (hle : ∀ c, st.currentClip = some c → c.start ≤ t.startFrame)
    (hse : t.startFrame ≤ t.endFrame)
    (hmem : t ∈ allT) :
    BgmInv bgmDur fps allT (bgmStep videoBgm fps bgmDur n i t st) ∧
    (∀ c, (bgmStep videoBgm fps bgmDur n i t st).currentClip = some c →
      c.start ≤ t.endFrame) := by
  unfold bgmStep
  dsimp only
  split
  · cases hcur : st.currentClip with
    | some cur =>
        dsimp only
        split
        · rename_i hsrc
          simp only [Bool.and_eq_true, bne_iff_ne, ne_eq] at hsrc
          exact bgmFinalizeSrcChanged_inv bgmDur fps allT t st _ _ _ _ _ cur hin hcur
            (fun h => hsrc.2 h.symm) (generateBgmAssetId_ne _) (hle cur hcur) hse hmem
        · rename_i hsrc
          simp at hsrc
          have hid : generateBgmAssetId (resolveBgmConfig videoBgm
              (t.scene.style.bind (·.bgm))).src = st.currentAssetId :=
            (hsrc (hin.2.1 cur hcur).2).symm
          exact bgmFinalizeSameSrc_inv bgmDur fps allT t st _ _ _ _ _ cur hin hcur
            hid (hle cur hcur) hse
    | none =>
        dsimp only
        exact bgmFirstClip_inv bgmDur fps allT t st _ _ _ _ _ hin hcur
          (generateBgmAssetId_ne _) hse
  · exact bgmExtend_inv bgmDur fps allT t st _ _ hin hle hse

theorem bgmGenLoop_inv (videoBgm : BgmConfig) (fps : ℤ) (bgmDur : String → Option ℤ)
    (n : ℕ) (allT : List SceneTiming) :
    ∀ (ts : List SceneTiming) (i : ℕ) (st : BgmGenState) (f : ℤ),
      TimChain f ts → (∀ u ∈ ts, u ∈ allT) →
      BgmInv bgmDur fps allT st →
      (∀ c, st.currentClip = some c → c.start ≤ f) →
      BgmInv bgmDur fps allT (bgmGenLoop videoBgm fps bgmDur n i ts st) := by
  intro ts
  induction ts with
  | nil => intro i st f _ _ hin _; exact hin
  | cons t rest ih =>
      intro i st f hchain hmem hin hle
      obtain ⟨hf, hse, hrest⟩ := hchain
      rw [bgmGenLoop]
      obtain ⟨g1, g2⟩ := bgmStep_inv videoBgm fps bgmDur n i allT t st hin
        (by intro c hc; rw [hf]; exact hle c hc) hse (hmem t (List.mem_cons_self _ _))
      exact ih (i + 1) _ t.endFrame hrest
        (fun u hu => hmem u (List.mem_cons_of_mem _ hu)) g1 g2

theorem generateBgmTrack_pairs (videoBgm : BgmConfig)
    (sceneTimings : List SceneTiming) (totalFrames fps : ℤ)
    (bgmDur : String → Option ℤ)
    (hchain : TimChain 0 sceneTimings) :
    BgmPairs bgmDur fps sceneTimings
      (generateBgmTrack videoBgm sceneTimings totalFrames fps bgmDur).2 := by
  unfold generateBgmTrack
  cases sceneTimings with
  | nil =>
      dsimp only
      exact bgmPairs_singleton bgmDur fps [] _
  | cons t rest =>
      dsimp only
      have hinit : BgmInv bgmDur fps (t :: rest) initBgmGenState := by
        refine ⟨?_, ?_, ?_, ?_, ?_⟩
        · intro a; rfl
        · intro c hc; exact Option.noConfusion hc
        · intro _; rfl
        · intro c hc; exact absurd hc (by simp [initBgmGenState])
        · exact bgmPairs_nil bgmDur fps _
      have hfin := bgmGenLoop_inv videoBgm fps bgmDur (t :: rest).length (t :: rest)
        (t :: rest) 0 initBgmGenState 0 hchain (fun u hu => hu) hinit
        (fun c hc => absurd hc (by simp [initBgmGenState]))
      obtain ⟨_, _, _, _, hpairs⟩ := hfin
      cases hcur : (bgmGenLoop videoBgm fps bgmDur (t :: rest).length 0 (t :: rest)
          initBgmGenState).currentClip with
      | some cur =>
          have hfl : FullList (bgmGenLoop videoBgm fps bgmDur (t :: rest).length 0
              (t :: rest) initBgmGenState) =
            (bgmGenLoop videoBgm fps bgmDur (t :: rest).length 0 (t :: rest)
              initBgmGenState).bgmClips ++ [cur] := by
            unfold FullList; rw [hcur]
          dsimp only
          rw [← hfl]
          exact hpairs
      | none =>
          have hfl : FullList (bgmGenLoop videoBgm fps bgmDur (t :: rest).length 0
              (t :: rest) initBgmGenState) =
            (bgmGenLoop videoBgm fps bgmDur (t :: rest).length 0 (t :: rest)
              initBgmGenState).bgmClips ++ [] := by
            unfold FullList; rw [hcur]
          rw [hfl, List.append_nil] at hpairs
          dsimp only
          exact hpairs

theorem sumBlockTotals_nonneg (script : Script) (scene : Scene)
    (manifest : List AudioManifestItem)
    (hf : 0 < script.video.fps) (hd : 0 ≤ script.video.defaultPauseSec) :
    ∀ (blocks : List Block) (i : ℕ),
      (∀ b ∈ blocks, validBlock b = true) →
      0 ≤ sumBlockTotals script scene manifest blocks i := by
  intro blocks
  induction blocks with
  | nil =>
      intro i _
      simp [sumBlockTotals]
  | cons b rest ih =>
      intro i hv
      have hvb := hv b (List.mem_cons_self _ _)
      have hpq : ∀ q, (blockOf b).pauseSec = some q → 0 ≤ q := by
        intro q hq
        cases b with
        | dialogue db =>
            simp only [validBlock, Bool.and_eq_true, decide_eq_true_eq] at hvb
            have := hvb.2
            rw [show (blockOf (Block.dialogue db)).pauseSec = db.pauseSec from rfl] at hq
            rw [hq] at this
            simpa using this
      have h1 := blockVoice_pos script scene manifest i (blockOf b) hf
      have h2 := blockPause_nonneg script (blockOf b) hf hd hpq
      have h3 := ih (i + 1) (fun b2 hb2 => hv b2 (List.mem_cons_of_mem _ hb2))
      simp only [sumBlockTotals]
      omega

theorem processScenes_timChain (script : Script) (manifest : List AudioManifestItem)
    (hf : 0 < script.video.fps) (hd : 0 ≤ script.video.defaultPauseSec) :
    ∀ (scenes : List Scene) (st : CompileState),
      (∀ sc ∈ scenes, ∀ b ∈ sc.blocks, validBlock b = true) →
      ∃ new, (processScenes script manifest scenes st).sceneTimings =
          st.sceneTimings ++ new ∧ TimChain st.currentFrame new := by
  intro scenes
  induction scenes with
  | nil =>
      intro st _
      exact ⟨[], by simp [processScenes], trivial⟩
  | cons sc rest ih =>
      intro st hv
      rw [processScenes]
      obtain ⟨new, hnew, hchain⟩ := ih _
        (fun s hs b hb => hv s (List.mem_cons_of_mem _ hs) b hb)
      refine ⟨({ sceneId := sc.id
                 startFrame := st.currentFrame
                 endFrame := (processBlocksInScene script sc manifest sc.blocks 0
                   st).currentFrame
                 scene := sc } : SceneTiming) :: new, ?_, ?_⟩
      · rw [hnew]
        dsimp only
        rw [processBlocksInScene_sceneTimings]
        simp
      · refine ⟨rfl, ?_, ?_⟩
        · show st.currentFrame ≤ (processBlocksInScene script sc manifest sc.blocks 0
            st).currentFrame
          rw [processBlocksInScene_currentFrame]
          have := sumBlockTotals_nonneg script sc manifest hf hd sc.blocks 0
            (hv sc (List.mem_cons_self _ _))
          omega
        · exact hchain

theorem compile_bgm_pairs (script : Script) (options : CompileOptions)
    (clips : List BgmClip)
    (hvalid : validScript script = true)
    (hb : getBgmTrack (compile script options) = some clips) :
    BgmPairs options.bgmDurationFrames script.video.fps
      (processScenes script options.audioManifest script.scenes
        initCompileState).sceneTimings clips := by
  obtain ⟨videoBgm, hbgm, hclips⟩ := getBgmTrack_compile script options clips hb
  have hv' := hvalid
  simp only [validScript, Bool.and_eq_true, decide_eq_true_eq, beq_iff_eq,
    and_assoc, List.all_eq_true] at hv'
  obtain ⟨hver, hfps, hw, hh, hps, hbgmv, hcast, hlen, hscenes⟩ := hv'
  have hblocks : ∀ sc ∈ script.scenes, ∀ b ∈ sc.blocks, validBlock b = true := by
    intro sc hsc b hb2
    have := hscenes sc hsc
    simp only [validScene, Bool.and_eq_true, List.all_eq_true] at this
    exact this.2 b hb2
  obtain ⟨new, hnew, hchain⟩ := processScenes_timChain script options.audioManifest
    hfps hps script.scenes initCompileState hblocks
  have hnew2 : (processScenes script options.audioManifest script.scenes
      initCompileState).sceneTimings = new := hnew
  have hpairs := generateBgmTrack_pairs videoBgm
    (processScenes script options.audioManifest script.scenes
      initCompileState).sceneTimings
    (processScenes script options.audioManifest script.scenes
      initCompileState).currentFrame
    script.video.fps options.bgmDurationFrames
    (by rw [hnew2]; exact hchain)
  rw [← hclips] at hpairs
  exact hpairs

/-- Claim C1: in every compiled Timeline (from a schema-valid script) with a
BGM track, for every pair of consecutive BGM clips referencing the same
`assetId`, the second clip's audio offset (the omitted field reads as 0)
equals `wrapPlaybackPosition` — the source's wrap of §4.2 — applied to the
accumulated playback position of that asset over all prior clips, the
asset's (possibly unknown) `durationFrames`, and the second clip's loop
window and loop flag. -/
theorem bgm_same_asset_offset (script : Script) (options : CompileOptions)
    (clips : List BgmClip)
    (hvalid : validScript script = true)
    (hb : getBgmTrack (compile script options) = some clips)
    (pre post : List BgmClip) (c1 c2 : BgmClip)
    (hdec : clips = pre ++ c1 :: c2 :: post)
    (hsame : c1.assetId = c2.assetId) :
    offsetVal c2 =
      wrapPlaybackPosition (sumDurFor c2.assetId (pre ++ [c1]))
        (options.bgmDurationFrames c2.assetId)
        c2.loopStartFrames c2.loopEndFrames c2.loop :=
  (compile_bgm_pairs script options clips hvalid hb pre c1 c2 post hdec).1 hsame

/-- Claim C2: in every compiled Timeline (from a schema-valid script),
whenever two consecutive BGM clips reference different assets, there is a
scene timing `t` with transition window
`tF = max 1 (ceil(transitionSec · fps))` (the scene override's
`transitionSec`, default 1 s) such that the new clip starts at `t`'s
`startFrame` with `transitionInFrames = tF` and audio offset 0, the previous
clip was extended to `t.startFrame + tF - start` with
`transitionOutFrames = tF`; and the planner's src-changed branch advances
the playback position of the previous asset by exactly that extended
duration. -/
theorem bgm_src_change_crossfade (script : Script) (options : CompileOptions)
    (clips : List BgmClip)
    (hvalid : validScript script = true)
    (hb : getBgmTrack (compile script options) = some clips)
    (pre post : List BgmClip) (c1 c2 : BgmClip)
    (hdec : clips = pre ++ c1 :: c2 :: post)
    (hdiff : c1.assetId ≠ c2.assetId) :
    (∃ t ∈ (processScenes script options.audioManifest script.scenes
        initCompileState).sceneTimings,
      c2.start = t.startFrame ∧
      c1.duration = t.startFrame + sceneTransitionFrames script.video.fps t - c1.start ∧
      c1.transitionOutFrames = some (sceneTransitionFrames script.video.fps t) ∧
      c2.transitionInFrames = some (sceneTransitionFrames script.video.fps t) ∧
      offsetVal c2 = 0) ∧
    (∀ (fps2 : ℤ) (t : SceneTiming) (st : BgmGenState)
        (config configStr : ResolvedBgmConfig) (assetId : String)
        (bgmAssets : List (String × BgmAsset))
        (sceneOverride : Option SceneBgmOverride) (isLastScene : Bool)
        (cur : BgmClip),
      (bgmFinalizeSrcChanged fps2 t st config configStr assetId bgmAssets
          sceneOverride isLastScene cur).playbackPos st.currentAssetId =
        st.playbackPos st.currentAssetId +
          (t.startFrame + max 1 (secToFrames
              ((sceneOverride.bind (·.transitionSec)).getD DEFAULT_TRANSITION_SEC)
              fps2) - cur.start)) := by
  constructor
  · exact (compile_bgm_pairs script options clips hvalid hb pre c1 c2 post hdec).2 hdiff
  · intro fps2 t st config configStr assetId bgmAssets sceneOverride isLastScene cur
    simp [bgmFinalizeSrcChanged, advancePlaybackPosition]

/-- Fallback clip value used only to read elements out of computed lists. -/
def dfltBgmClip : BgmClip :=
  { assetId := "", start := 0, duration := 0, audioOffsetFrames := none,
    volumeDb := none, volume := none, maxGainDb := none, fadeInFrames := 1,
    fadeOutFrames := 1, loop := false, loopStartFrames := none,
    loopEndFrames := none, loopCrossfadeFrames := none, idleBoostDb := none,
    ducking := none, transitionInFrames := none, transitionOutFrames := none }

/-- Scene override changing only the volume: same source, changed settings. -/
def wC1Ov : SceneBgmOverride :=
  { src := none, preset := none, volumeDb := some (mkRat (-6) 1), volume := none,
    maxGainDb := none, fadeInSec := none, fadeOutSec := none, loop := none,
    loopStartSec := none, loopEndSec := none, loopCrossfadeSec := none,
    idleBoostDb := none, ducking := none, transitionSec := none }

def wC1Scene1 : Scene :=
  { id := "s1", style := some { bg := none, subtitleStyle := none, bgm := some wC1Ov },
    blocks := [Block.dialogue wFallbackBlock] }

def wC1Script : Script :=
  { version := "0.1",
    video := { fps := 30, width := 1920, height := 1080,
               defaultPauseSec := mkRat 0 1, bgm := some wBgmConfig },
    cast := [], scenes := [wScene0, wC1Scene1] }

def wC1Clips : List BgmClip := (getBgmTrack (compile wC1Script wOpts)).getD []

def wC1a : BgmClip := wC1Clips.getD 0 dfltBgmClip

def wC1b : BgmClip := wC1Clips.getD 1 dfltBgmClip

theorem bgm_same_asset_offset_witness :
    validScript wC1Script = true ∧
    getBgmTrack (compile wC1Script wOpts) = some wC1Clips ∧
    wC1Clips = [] ++ wC1a :: wC1b :: [] ∧
    wC1a.assetId = wC1b.assetId ∧
    offsetVal wC1b =
      wrapPlaybackPosition (sumDurFor wC1b.assetId ([] ++ [wC1a]))
        (wOpts.bgmDurationFrames wC1b.assetId)
        wC1b.loopStartFrames wC1b.loopEndFrames wC1b.loop :=
  ⟨by decide, by decide, by decide, by decide,
    bgm_same_asset_offset wC1Script wOpts wC1Clips (by decide) (by decide)
      [] [] wC1a wC1b (by decide) (by decide)⟩

/-- Scene override changing the source: triggers the crossfade branch. -/
def wC2Ov : SceneBgmOverride :=
  { src := some "bgm/alt.mp3", preset := none, volumeDb := none, volume := none,
    maxGainDb := none, fadeInSec := none, fadeOutSec := none, loop := none,
    loopStartSec := none, loopEndSec := none, loopCrossfadeSec := none,
    idleBoostDb := none, ducking := none, transitionSec := none }

def wC2Scene1 : Scene :=
  { id := "s1", style := some { bg := none, subtitleStyle := none, bgm := some wC2Ov },
    blocks := [Block.dialogue wFallbackBlock] }

def wC2Script : Script :=
  { version := "0.1",
    video := { fps := 30, width := 1920, height := 1080,
               defaultPauseSec := mkRat 0 1, bgm := some wBgmConfig },
    cast := [], scenes := [wScene0, wC2Scene1] }

def wC2Clips : List BgmClip := (getBgmTrack (compile wC2Script wOpts)).getD []

def wC2a : BgmClip := wC2Clips.getD 0 dfltBgmClip

def wC2b : BgmClip := wC2Clips.getD 1 dfltBgmClip

theorem bgm_src_change_crossfade_witness :
    validScript wC2Script = true ∧
    getBgmTrack (compile wC2Script wOpts) = some wC2Clips ∧
    wC2Clips = [] ++ wC2a :: wC2b :: [] ∧
    wC2a.assetId ≠ wC2b.assetId ∧
    ((∃ t ∈ (processScenes wC2Script wOpts.audioManifest wC2Script.scenes
        initCompileState).sceneTimings,
      wC2b.start = t.startFrame ∧
      wC2a.duration =
        t.startFrame + sceneTransitionFrames wC2Script.video.fps t - wC2a.start ∧
      wC2a.transitionOutFrames =
        some (sceneTransitionFrames wC2Script.video.fps t) ∧
      wC2b.transitionInFrames =
        some (sceneTransitionFrames wC2Script.video.fps t) ∧
      offsetVal wC2b = 0) ∧
    (∀ (fps2 : ℤ) (t : SceneTiming) (st : BgmGenState)
        (config configStr : ResolvedBgmConfig) (assetId : String)
        (bgmAssets : List (String × BgmAsset))
        (sceneOverride : Option SceneBgmOverride) (isLastScene : Bool)
        (cur : BgmClip),
      (bgmFinalizeSrcChanged fps2 t st config configStr assetId bgmAssets
          sceneOverride isLastScene cur).playbackPos st.currentAssetId =
        st.playbackPos st.currentAssetId +
          (t.startFrame + max 1 (secToFrames
              ((sceneOverride.bind (·.transitionSec)).getD DEFAULT_TRANSITION_SEC)
              fps2) - cur.start))) :=
  ⟨by decide, by decide, by decide, by decide,
    bgm_src_change_crossfade wC2Script wOpts wC2Clips (by decide) (by decide)
      [] [] wC2a wC2b (by decide) (by decide)⟩

/-- Blockless trailing scene with a BGM settings change (volume override). -/
def cexScene1 : Scene :=
  { id := "s1", style := some { bg := none, subtitleStyle := none, bgm := some wC1Ov },
    blocks := [] }

/-- Schema-valid script with BGM whose only dialogue block is unbound and
whose last scene is blockless with changed BGM settings. -/
def cexScript : Script :=
  { version := "0.1",
    video := { fps := 30, width := 1920, height := 1080,
               defaultPauseSec := mkRat 0 1, bgm := some wBgmConfig },
    cast := [], scenes := [wScene0, cexScene1] }

/-- Counterexample to the unrestricted validation conjunct of claim C6: the
script is schema-valid and its dialogue block has no manifest match (the
fallback path fires), yet the compiled Timeline fails Timeline validation —
the settings change on the trailing blockless scene closes the open BGM clip
at that scene's start and opens a clip of duration `endFrame - startFrame =
0`, and `bgmClipSchema` requires a positive duration. -/
theorem dialogue_fallback_validation_cex :
    validScript cexScript = true ∧
    findAudioInManifest wFallbackBlock wOpts.audioManifest
      (generateAudioKey "s0" 0) = none ∧
    validateTimeline (compile cexScript wOpts) = false :=
  ⟨by decide, rfl, by decide⟩

end FV
